import Mathlib

/-!
# Request routing of the two example HTTP servers

A shallow embedding of `02.ServeMux/main.go` (listener A, port 8080) and of
`Simple-HTTP-Server/main.go` (listener B, port 3000), together with the parts of
the Go standard library that the two programs call and that decide what they
answer: `strings.Replace`, `fmt.Sprintf` (the `%s` verb), `path.Clean` and the
request multiplexer `http.ServeMux` of `net/http/server.go` (the map `m` of
patterns and the slice `es` of the patterns ending in `/`, longest first: the
exact entry wins, then the first entry of `es` that is a prefix of the path,
after the path of every request but CONNECT has been canonicalised by
`cleanPath`).

The repository pins no Go release. The multiplexer embedded here is the one of
the releases before Go 1.22, which cleans and matches the decoded path
`r.URL.Path`. The releases from 1.22 on clean and match the escaped path
`r.URL.EscapedPath()` segment by segment, so that they differ on targets with
percent-escapes such as `/hello%2F`, and releases differ in the status code of
the redirect. The theorems about the listeners therefore never state a redirect
status, and those that depend on how the path is matched are stated for requests
whose target spells the path without such escapes (`RawPath` empty), on which
the releases agree.

A request is the value the server's `readRequest` hands to the handler; an
answer is what the handler has written to its `http.ResponseWriter` (status
code, header map at the time of `WriteHeader`, bytes of the body), or the
redirect that the multiplexer issues itself. What the connection does with these
writes afterwards (framing, added headers, no body for HEAD) is outside the
embedding, as are sockets, TLS and logging.
-/

/-- A Go `string`. Go strings are byte sequences; the embedding keeps one list
element per byte. Every function below only compares elements with each other
and with ASCII characters, so the elements may equally be read as the characters
of a valid UTF-8 string. -/
abbrev GoString := List Char

namespace strings

/-- The function `strings.HasPrefix(s, prefix)`:
`len(s) >= len(prefix) && s[0:len(prefix)] == prefix`. -/
def HasPrefix (s pre : GoString) : Bool :=
  decide (s.length ≥ pre.length) && decide (s.take pre.length = pre)

/-- The function `strings.Index(s, substr)`: the index of the first instance of
`substr` in `s`, or `-1` if `substr` is not present in `s`. -/
def Index : GoString → GoString → Int
  | [], substr => if substr = [] then 0 else -1
  | c :: s, substr =>
    if HasPrefix (c :: s) substr then 0
    else
      let i := Index s substr
      if i < 0 then -1 else i + 1

/-- The function `strings.Contains(s, substr)`: `Index(s, substr) >= 0`. -/
def Contains (s substr : GoString) : Bool :=
  decide (Index s substr ≥ 0)

/-- The loop of `strings.Count` for a `substr` of two bytes or more:
`for { i := Index(s, substr); if i == -1 { return n }; n++; s = s[i+len(substr):] }`.
Every round drops at least `len(substr)` bytes of `s`, so `len(s) + 1` rounds
are enough. -/
def Count.loop (substr : GoString) : Nat → GoString → Int → Int
  | 0, _, n => n
  | fuel + 1, s, n =>
    let i := Index s substr
    if i = -1 then n
    else Count.loop substr fuel (s.drop (i.toNat + substr.length)) (n + 1)

/-- The function `strings.Count(s, substr)`: the number of non-overlapping
instances of `substr` in `s`; for an empty `substr`, one more than the number of
characters of `s`. -/
def Count (s substr : GoString) : Int :=
  if substr.length = 0 then (s.length : Int) + 1
  else if substr.length = 1 then ((s.filter (fun c => substr.head? = some c)).length : Int)
  else Count.loop substr (s.length + 1) s 0

/-- The replacement loop of `strings.Replace`, `for i := 0; i < n; i++ { ... }`
followed by `b.WriteString(s[start:])`. The first argument counts the rounds
that remain, `i` is the round, `start` the read position in `s` and `b` the
builder. -/
def Replace.loop (s old new : GoString) : Nat → Nat → Nat → GoString → GoString
  | 0, _, start, b => b ++ s.drop start
  | k + 1, i, start, b =>
    let j :=
      if old.length = 0 then
        (if i > 0 then start + min 1 (s.length - start) else start)
      else start + (Index (s.drop start) old).toNat
    Replace.loop s old new k (i + 1) (j + old.length)
      (b ++ (s.drop start).take (j - start) ++ new)

/-- The function `strings.Replace(s, old, new, n)`: a copy of `s` with the first
`n` non-overlapping instances of `old` replaced by `new`; no limit when
`n < 0`. -/
def Replace (s old new : GoString) (n : Int) : GoString :=
  if old = new ∨ n = 0 then s
  else
    let m := Count s old
    if m = 0 then s
    else
      let n := if n < 0 ∨ m < n then m else n
      Replace.loop s old new n.toNat 0 0 []

/-- The function `strings.TrimPrefix(s, prefix)`:
`if HasPrefix(s, prefix) { return s[len(prefix):] }; return s`. -/
def TrimPrefix (s pre : GoString) : GoString :=
  if HasPrefix s pre then s.drop pre.length else s

end strings

namespace fmt

/-- The function `fmt.Sprintf(format, a...)` for formats whose only verb is `%s`
and string operands: each `%s` prints the next operand (`%!s(MISSING)` when
none is left), every other byte of the format is copied, and operands that are
left over are reported after the text. -/
def Sprintf : GoString → List GoString → GoString
  | '%' :: 's' :: rest, a :: as => a ++ Sprintf rest as
  | '%' :: 's' :: rest, [] => "%!s(MISSING)".toList ++ Sprintf rest []
  | c :: rest, as => c :: Sprintf rest as
  | [], [] => []
  | [], a :: as =>
    "%!(EXTRA ".toList ++
      ", ".toList.intercalate ((a :: as).map (fun x => "string=".toList ++ x)) ++ ")".toList

end fmt

namespace path

/-- The inner loop of the `..` case of `path.Clean`, after `out.w--`:
`for out.w > dotdot && out.index(out.w) != '/' { out.w-- }`, started at
write position `w`; the result is the final `out.w`. -/
def Clean.backtrack (out : GoString) (dotdot : Nat) : Nat → Nat
  | 0 => 0
  | w + 1 =>
    if w + 1 > dotdot ∧ out[w + 1]? ≠ some '/' then Clean.backtrack out dotdot w else w + 1

/-- The main loop `for r < n { switch { ... } }` of `path.Clean`. `p` is the
path being read, `r` the index of the next byte to process, `out` the bytes
written so far (the `lazybuf`, whose `w` is `out.length`) and `dotdot` the index
in `out` where `..` must stop. Every round advances `r`, so `len(p)` rounds are
enough; the first argument bounds the rounds. -/
def Clean.loop (p : GoString) (rooted : Bool) : Nat → Nat → GoString → Nat → GoString
  | 0, _, out, _ => out
  | fuel + 1, r, out, dotdot =>
    if r < p.length then
      if p[r]? = some '/' then
        -- empty path element
        Clean.loop p rooted fuel (r + 1) out dotdot
      else if p[r]? = some '.' ∧ (r + 1 = p.length ∨ p[r + 1]? = some '/') then
        -- . element
        Clean.loop p rooted fuel (r + 1) out dotdot
      else if p[r]? = some '.' ∧ p[r + 1]? = some '.' ∧
          (r + 2 = p.length ∨ p[r + 2]? = some '/') then
        -- .. element: remove to last /
        if out.length > dotdot then
          -- can backtrack
          Clean.loop p rooted fuel (r + 2)
            (out.take (Clean.backtrack out dotdot (out.length - 1))) dotdot
        else if !rooted then
          -- cannot backtrack, but not rooted, so append .. element
          let out1 := (if out.length > 0 then out ++ ['/'] else out) ++ ['.', '.']
          Clean.loop p rooted fuel (r + 2) out1 out1.length
        else
          Clean.loop p rooted fuel (r + 2) out dotdot
      else
        -- real path element: add slash if needed, then copy the element
        let out1 :=
          if (rooted ∧ out.length ≠ 1) ∨ (!rooted ∧ out.length ≠ 0) then out ++ ['/'] else out
        let elem := (p.drop r).takeWhile (fun c => c ≠ '/')
        Clean.loop p rooted fuel (r + elem.length) (out1 ++ elem) dotdot
    else out

/-- The function `path.Clean(path)`: the shortest path name equivalent to
`path` by purely lexical processing. -/
def Clean (p : GoString) : GoString :=
  if p = [] then ['.']
  else
    let rooted : Bool := p.head? = some '/'
    let out :=
      if rooted then Clean.loop p rooted (p.length + 1) 1 ['/'] 1
      else Clean.loop p rooted (p.length + 1) 0 [] 0
    -- Turn empty string into "."
    if out.length = 0 then ['.'] else out

end path

namespace sort

/-- The loop of `sort.Search`: `for i < j { h := int(uint(i+j) >> 1);
if !f(h) { i = h + 1 } else { j = h } }`, which halves `j - i` in every round. -/
def Search.loop (f : Nat → Bool) : Nat → Nat → Nat → Nat
  | 0, i, _ => i
  | fuel + 1, i, j =>
    if i < j then
      let h := (i + j) / 2
      if !f h then Search.loop f fuel (h + 1) j else Search.loop f fuel i h
    else i

/-- The function `sort.Search(n, f)`: binary search for the smallest index in
`[0, n)` at which `f` is true, `n` if there is none. -/
def Search (n : Nat) (f : Nat → Bool) : Nat :=
  Search.loop f n 0 n

end sort

namespace http

/-- The type `http.Header`, `map[string][]string`, as an association list. -/
abbrev Header := List (GoString × List GoString)

/-- The method `Header.Set(key, value)`: the entry of `key` becomes the single
value `value`. The keys the two programs and the library code below pass are
already in canonical MIME form. -/
def Header.Set (h : Header) (key value : GoString) : Header :=
  (key, [value]) :: h.filter (fun e => decide (e.1 ≠ key))

/-- The fields of `url.URL` that the server side reads. `Path` is the decoded
path; `RawPath` is the path as the request target spelled it, set only when
that spelling is not the default encoding of `Path` (as for `/hello%2Fbob`) and
empty otherwise. -/
structure URL where
  Host : GoString
  Path : GoString
  RawPath : GoString
  RawQuery : GoString
  deriving DecidableEq

/-- The fields of `http.Request` that the server side can read: the request
line, the `Host`, the parsed URL, the header and the body. -/
structure Request where
  Method : GoString
  ProtoMajor : Nat
  ProtoMinor : Nat
  Host : GoString
  RequestURI : GoString
  URL : URL
  Header : Header
  Body : GoString
  deriving DecidableEq

/-- What the server's `readRequest` guarantees of the requests it hands to a
handler: the request-target `*` is parsed to the path `*`, or, for a CONNECT
request (whose target is read as an authority), to the empty path. -/
abbrev Request.wellFormed (r : Request) : Prop :=
  r.RequestURI = ['*'] → r.URL.Path = ['*'] ∨ r.URL.Path = []

/-- The request `method p HTTP/1.1` with `Host: example.com`, no query, no
header and an empty body, whose target is the path `p` itself. -/
def Request.simple (method p : GoString) : Request :=
  { Method := method, ProtoMajor := 1, ProtoMinor := 1, Host := "example.com".toList,
    RequestURI := p, URL := { Host := [], Path := p, RawPath := [], RawQuery := [] },
    Header := [], Body := [] }

/-- The method `Request.ProtoAtLeast(major, minor)`. -/
def Request.ProtoAtLeast (r : Request) (major minor : Nat) : Bool :=
  decide (r.ProtoMajor > major) || (decide (r.ProtoMajor = major) && decide (r.ProtoMinor ≥ minor))

/-- What a handler has done to its `http.ResponseWriter`: `header` is the map
returned by `w.Header()`, `sent` the status code and the copy of the header
taken by the first `WriteHeader` (`none` while the header is unwritten), `body`
the bytes passed to `Write`. -/
structure ResponseWriter where
  header : Header
  sent : Option (Nat × Header)
  body : GoString
  deriving DecidableEq

/-- The writer a handler is started with. -/
def ResponseWriter.fresh : ResponseWriter := { header := [], sent := none, body := [] }

/-- The method `w.WriteHeader(code)`: sends the status line and the header as it
is now; a second call changes nothing. -/
def ResponseWriter.WriteHeader (w : ResponseWriter) (code : Nat) : ResponseWriter :=
  match w.sent with
  | some _ => w
  | none => { w with sent := some (code, w.header) }

/-- The method `w.Write(data)`: `if !w.wroteHeader { w.WriteHeader(StatusOK) }`,
then the data goes to the body. -/
def ResponseWriter.Write (w : ResponseWriter) (data : GoString) : ResponseWriter :=
  let w1 := match w.sent with
    | some _ => w
    | none => w.WriteHeader 200
  { w1 with body := w1.body ++ data }

/-- The status code of a written response, `0` while no header was written. -/
def ResponseWriter.status (w : ResponseWriter) : Nat :=
  match w.sent with
  | some (code, _) => code
  | none => 0

end http

namespace io

/-- The function `io.WriteString(w, s)` on a response writer: `w.Write([]byte(s))`. -/
def WriteString (w : http.ResponseWriter) (s : GoString) : http.ResponseWriter :=
  w.Write s

end io

namespace http

/-- The constant `http.StatusNotFound`. -/
def StatusNotFound : Nat := 404

/-- The constant `http.StatusBadRequest`. -/
def StatusBadRequest : Nat := 400

/-- The function `http.Error(w, error, code)`: sets `Content-Type` to
`text/plain; charset=utf-8` and `X-Content-Type-Options` to `nosniff`, writes the
header with `code` and then `fmt.Fprintln(w, error)`. -/
def Error (w : ResponseWriter) (error : GoString) (code : Nat) : ResponseWriter :=
  let h1 := Header.Set w.header "Content-Type".toList "text/plain; charset=utf-8".toList
  let h2 := Header.Set h1 "X-Content-Type-Options".toList "nosniff".toList
  let w2 : ResponseWriter := { w with header := h2 }
  (w2.WriteHeader code).Write (error ++ ['\n'])

/-- The function `http.NotFound(w, r)`:
`Error(w, "404 page not found", StatusNotFound)`. -/
def NotFound (w : ResponseWriter) (_r : Request) : ResponseWriter :=
  Error w "404 page not found".toList StatusNotFound

/-- The handlers that `ServeMux.Handler` can return: a function value
registered with `HandleFunc` (the adapter `http.HandlerFunc`; `φ` is the type
that stands for function values), `http.RedirectHandler(url, code)` (kept with
the `url.URL` value whose `String()` the library passes; the code is the
library's redirect status, which differs between Go releases and is left out)
and `http.NotFoundHandler()`; `globalOptionsHandler` is the server's own handler
for `OPTIONS *`. -/
inductive Handler (φ : Type) where
  | HandlerFunc (f : φ)
  | RedirectHandler (url : URL)
  | NotFoundHandler
  | globalOptionsHandler
  deriving DecidableEq

/-- Whether a handler is a registered function value. -/
def Handler.isFunc {φ : Type} : Handler φ → Bool
  | .HandlerFunc _ => true
  | _ => false

/-- What serving a request produced: the writes of a handler, or a redirect
written by `http.Redirect(w, r, url, code)`, of which the target is kept. -/
inductive Outcome where
  | response (w : ResponseWriter)
  | redirect (url : URL)
  deriving DecidableEq

/-- The status code of an outcome that a handler wrote; a redirect carries the
library's redirect status, which is not part of the embedding. -/
def Outcome.status : Outcome → Option Nat
  | .response w => some w.status
  | .redirect _ => none

/-- Whether an outcome is a redirect issued by the multiplexer. -/
def Outcome.isRedirect : Outcome → Bool
  | .response _ => false
  | .redirect _ => true

/-- The method `Handler.ServeHTTP(w, r)` of each kind of handler: `f(w, r)` for
`HandlerFunc(f)`, `Redirect(w, r, url, code)` for a redirect handler,
`NotFound(w, r)` for the not-found handler; `globalOptionsHandler` sets
`Content-Length: 0` and drains the request body. -/
def Handler.ServeHTTP : Handler (ResponseWriter → Request → ResponseWriter) →
    ResponseWriter → Request → Outcome
  | .HandlerFunc f, w, r => .response (f w r)
  | .RedirectHandler url, _, _ => .redirect url
  | .NotFoundHandler, w, r => .response (NotFound w r)
  | .globalOptionsHandler, w, _ =>
    .response { w with header := Header.Set w.header "Content-Length".toList "0".toList }

/-- The type `muxEntry` of `net/http`. -/
structure muxEntry (φ : Type) where
  h : Handler φ
  pattern : GoString
  deriving DecidableEq

/-- The type `http.ServeMux`: the map `m` from pattern to entry (an association
list), the slice `es` of the entries whose pattern ends in `/`, sorted from
longest to shortest, and `hosts`, whether any pattern contains a host name. -/
structure ServeMux (φ : Type) where
  m : List (GoString × muxEntry φ)
  es : List (muxEntry φ)
  hosts : Bool
  deriving DecidableEq

/-- The function `http.NewServeMux()`; also the initial `DefaultServeMux`. -/
def NewServeMux {φ : Type} : ServeMux φ := { m := [], es := [], hosts := false }

/-- The map read `mux.m[key]`. -/
def ServeMux.lookup {φ : Type} (mux : ServeMux φ) (key : GoString) : Option (muxEntry φ) :=
  (mux.m.find? (fun kv => decide (kv.1 = key))).map (fun kv => kv.2)

/-- The function `appendSorted(es, e)` of `net/http`: `e` goes before the first
entry with a shorter pattern. -/
def appendSorted {φ : Type} (es : List (muxEntry φ)) (e : muxEntry φ) : List (muxEntry φ) :=
  let n := es.length
  let i := sort.Search n (fun i =>
    match es[i]? with
    | some x => decide (x.pattern.length < e.pattern.length)
    | none => false)
  if i = n then es ++ [e]
  else es.take i ++ [e] ++ es.drop i

/-- The method `mux.Handle(pattern, handler)`; `none` stands for its panics
(empty pattern, nil handler, pattern registered twice). -/
def ServeMux.Handle {φ : Type} (mux : ServeMux φ) (pattern : GoString)
    (handler : Option (Handler φ)) : Option (ServeMux φ) :=
  if pattern = [] then none
  else
    match handler with
    | none => none
    | some h =>
      if (mux.lookup pattern).isSome then none
      else
        let e : muxEntry φ := { h := h, pattern := pattern }
        some
          { m := (pattern, e) :: mux.m
            es := if pattern.getLast? = some '/' then appendSorted mux.es e else mux.es
            hosts := if pattern.head? ≠ some '/' then true else mux.hosts }

/-- The method `mux.HandleFunc(pattern, handler)`:
`mux.Handle(pattern, HandlerFunc(handler))`, a panic for a nil function. -/
def ServeMux.HandleFunc {φ : Type} (mux : ServeMux φ) (pattern : GoString)
    (handler : Option φ) : Option (ServeMux φ) :=
  match handler with
  | none => none
  | some f => mux.Handle pattern (some (.HandlerFunc f))

/-- The function `cleanPath(p)` of `net/http`: the canonical path for `p`,
eliminating `.` and `..` elements. -/
def cleanPath (p : GoString) : GoString :=
  if p = [] then ['/']
  else
    let p := if p.head? ≠ some '/' then '/' :: p else p
    let np := path.Clean p
    -- path.Clean removes trailing slash except for root;
    -- put the trailing slash back if necessary.
    if p.getLast? = some '/' ∧ np ≠ ['/'] then
      if p.length = np.length + 1 ∧ strings.HasPrefix p np then p
      else np ++ ['/']
    else np

/-- The method `mux.match(path)`: the exact entry if there is one, else the
first entry of `mux.es` whose pattern is a prefix of the path, else `nil`. -/
def ServeMux.match_ {φ : Type} (mux : ServeMux φ) (p : GoString) :
    Option (Handler φ) × GoString :=
  match mux.lookup p with
  | some v => (some v.h, v.pattern)
  | none =>
    match mux.es.find? (fun e => strings.HasPrefix p e.pattern) with
    | some e => (some e.h, e.pattern)
    | none => (none, [])

/-- The longest pattern among routes, the first of them among equals; `none`
for no route. -/
def longestPattern {φ : Type} :
    List (GoString × muxEntry φ) → Option (GoString × muxEntry φ)
  | [] => none
  | kv :: rest =>
    match longestPattern rest with
    | none => some kv
    | some best => if best.1.length > kv.1.length then some best else some kv

/-- The matching algorithm as the specification words it, over the registered
routes: (1) an exact-match pattern equal to the path; (2) otherwise, among the
registered patterns ending in `/` that are a prefix of the path, the one of
greatest length; (3) otherwise the catch-all pattern `/` if it is registered;
(4) otherwise nothing. -/
def specDispatch {φ : Type} (routes : List (GoString × muxEntry φ)) (p : GoString) :
    Option (Handler φ) × GoString :=
  match routes.find? (fun kv => decide (kv.1.getLast? ≠ some '/') && decide (kv.1 = p)) with
  | some kv => (some kv.2.h, kv.1)
  | none =>
    match longestPattern
        (routes.filter (fun kv => decide (kv.1.getLast? = some '/') && strings.HasPrefix p kv.1)) with
    | some kv => (some kv.2.h, kv.1)
    | none =>
      match routes.find? (fun kv => decide (kv.1 = ['/'])) with
      | some kv => (some kv.2.h, kv.1)
      | none => (none, [])

/-- The method `mux.shouldRedirectRLocked(host, path)`: whether the path should
be redirected to `path+"/"`, which is so when `path+"/"` (or `host+path+"/"`)
is registered, `path` (or `host+path`) is not, and `path` does not end in `/`:
`p := []string{path, host + path}`; `false` if some `mux.m[c]` exists; `false`
if `len(path) == 0`; `path[n-1] != '/'` if some `mux.m[c+"/"]` exists; else
`false`. -/
def ServeMux.shouldRedirectRLocked {φ : Type} (mux : ServeMux φ) (host p : GoString) : Bool :=
  let ps := [p, host ++ p]
  if ps.any (fun c => (mux.lookup c).isSome) then false
  else
    let n := p.length
    if n = 0 then false
    else if ps.any (fun c => (mux.lookup (c ++ ['/'])).isSome) then
      decide (p[n - 1]? ≠ some '/')
    else false

/-- The method `mux.redirectToPathSlash(host, path, u)`: `(u, false)` unless
`shouldRedirectRLocked`, else `(&url.URL{Path: path + "/", RawQuery: u.RawQuery}, true)`. -/
def ServeMux.redirectToPathSlash {φ : Type} (mux : ServeMux φ) (host p : GoString) (u : URL) :
    URL × Bool :=
  if !mux.shouldRedirectRLocked host p then (u, false)
  else ({ Host := [], Path := p ++ ['/'], RawPath := [], RawQuery := u.RawQuery }, true)

/-- The method `mux.handler(host, path)`, the main implementation of `Handler`:
`if mux.hosts { h, pattern = mux.match(host + path) }`,
`if h == nil { h, pattern = mux.match(path) }`,
`if h == nil { h, pattern = NotFoundHandler(), "" }`. -/
def ServeMux.handler {φ : Type} (mux : ServeMux φ) (host p : GoString) :
    Handler φ × GoString :=
  -- Host-specific pattern takes precedence over generic ones
  let r1 : Option (Handler φ) × GoString :=
    if mux.hosts then mux.match_ (host ++ p) else (none, [])
  let r2 := if r1.1.isNone then mux.match_ p else r1
  match r2 with
  | (some h, pattern) => (h, pattern)
  | (none, _) => (.NotFoundHandler, [])

/-- The method `mux.Handler(r)`: the handler to use for the request and the
pattern it was registered under (before Go 1.22). A path that `cleanPath`
changes gets a `RedirectHandler` to
`&url.URL{Path: path, RawQuery: r.URL.RawQuery}`. `stripHostPort` is the library
function of that name
(`h` without any trailing `:<port>`), taken as a parameter. -/
def ServeMux.Handler {φ : Type} (stripHostPort : GoString → GoString) (mux : ServeMux φ)
    (r : Request) : Handler φ × GoString :=
  -- CONNECT requests are not canonicalized.
  if r.Method = "CONNECT".toList then
    match mux.redirectToPathSlash r.URL.Host r.URL.Path r.URL with
    | (u, true) => (.RedirectHandler u, u.Path)
    | (_, false) => mux.handler r.Host r.URL.Path
  else
    -- All other requests have any port stripped and path cleaned
    -- before passing to mux.handler.
    let host := stripHostPort r.Host
    let p := cleanPath r.URL.Path
    match mux.redirectToPathSlash host p r.URL with
    | (u, true) => (.RedirectHandler u, u.Path)
    | (_, false) =>
      if p ≠ r.URL.Path then
        (.RedirectHandler { Host := [], Path := p, RawPath := [], RawQuery := r.URL.RawQuery },
          (mux.handler host p).2)
      else mux.handler host r.URL.Path

/-- The method `mux.ServeHTTP(w, r)`: the request-target `*` is answered with
`StatusBadRequest` (and `Connection: close` from HTTP/1.1 on); any other request
goes to `h, _ := mux.Handler(r); h.ServeHTTP(w, r)`. -/
def ServeMux.ServeHTTP (stripHostPort : GoString → GoString)
    (mux : ServeMux (ResponseWriter → Request → ResponseWriter))
    (w : ResponseWriter) (r : Request) : Outcome :=
  if r.RequestURI = ['*'] then
    let h1 := if r.ProtoAtLeast 1 1 then Header.Set w.header "Connection".toList "close".toList
      else w.header
    let w1 : ResponseWriter := { w with header := h1 }
    .response (w1.WriteHeader StatusBadRequest)
  else
    (mux.Handler stripHostPort r).1.ServeHTTP w r

end http

namespace http

/-- The state of a server process once `main` has registered its routes: the
package-level `DefaultServeMux` and the `Handler` field of the `http.Server`
that `ListenAndServe(addr, handler)` starts (`none` for a nil handler). -/
structure Process (φ : Type) where
  DefaultServeMux : ServeMux φ
  srvHandler : Option (ServeMux φ)
  deriving DecidableEq

/-- The method `serverHandler.ServeHTTP(rw, req)` of `net/http`: the server's
handler, `DefaultServeMux` when that is nil, and the library's own handler for
`OPTIONS *`. -/
def serverHandler.ServeHTTP (stripHostPort : GoString → GoString)
    (ps : Process (ResponseWriter → Request → ResponseWriter))
    (rw : ResponseWriter) (req : Request) : Outcome :=
  let handler := match ps.srvHandler with
    | some h => h
    | none => ps.DefaultServeMux
  if req.RequestURI = ['*'] ∧ req.Method = "OPTIONS".toList then
    Handler.globalOptionsHandler.ServeHTTP rw req
  else handler.ServeHTTP stripHostPort rw req

/-- How the function values of a program run: `exec f ps w r` is the process
state and the response writer after the call `f(w, r)` made in the process
state `ps`. A Go function may register routes or assign to package-level
variables while it serves; the embedding of a function whose body does neither
hands `ps` back as it got it. -/
abbrev Exec (φ : Type) :=
  φ → Process φ → ResponseWriter → Request → Process φ × ResponseWriter

/-- The method `Handler.ServeHTTP(w, r)` with the process state threaded
through: a registered function runs by `exec`; the library's own handlers
(`Redirect`, `NotFound`, `globalOptionsHandler`) write to `w` only. -/
def Handler.run {φ : Type} (exec : Exec φ) :
    Handler φ → Process φ → ResponseWriter → Request → Process φ × Outcome
  | .HandlerFunc f, ps, w, r =>
    let res := exec f ps w r
    (res.1, .response res.2)
  | .RedirectHandler url, ps, _, _ => (ps, .redirect url)
  | .NotFoundHandler, ps, w, r => (ps, .response (NotFound w r))
  | .globalOptionsHandler, ps, w, _ =>
    (ps, .response { w with header := Header.Set w.header "Content-Length".toList "0".toList })

/-- The method `mux.ServeHTTP(w, r)` with the process state threaded through;
the multiplexer itself only reads its tables (under `mux.mu.RLock()`). -/
def ServeMux.run {φ : Type} (exec : Exec φ) (stripHostPort : GoString → GoString)
    (mux : ServeMux φ) (ps : Process φ) (w : ResponseWriter) (r : Request) :
    Process φ × Outcome :=
  if r.RequestURI = ['*'] then
    let h1 := if r.ProtoAtLeast 1 1 then Header.Set w.header "Connection".toList "close".toList
      else w.header
    let w1 : ResponseWriter := { w with header := h1 }
    (ps, .response (w1.WriteHeader StatusBadRequest))
  else
    (mux.Handler stripHostPort r).1.run exec ps w r

/-- The method `serverHandler.ServeHTTP(rw, req)` with the process state
threaded through: the handler is looked up in the state the request finds. -/
def serverHandler.run {φ : Type} (exec : Exec φ) (stripHostPort : GoString → GoString)
    (ps : Process φ) (rw : ResponseWriter) (req : Request) : Process φ × Outcome :=
  let handler := match ps.srvHandler with
    | some h => h
    | none => ps.DefaultServeMux
  if req.RequestURI = ['*'] ∧ req.Method = "OPTIONS".toList then
    Handler.globalOptionsHandler.run exec ps rw req
  else handler.run exec stripHostPort ps rw req

/-- Serving one request in the process state `ps`: the handler runs on a fresh
response writer; the result is the process state it leaves and the outcome. -/
def Process.serve {φ : Type} (exec : Exec φ) (stripHostPort : GoString → GoString)
    (ps : Process φ) (req : Request) : Process φ × Outcome :=
  serverHandler.run exec stripHostPort ps ResponseWriter.fresh req

/-- Serving a sequence of requests one after the other, each in the state the
one before left. -/
def Process.serveAll {φ : Type} (exec : Exec φ) (stripHostPort : GoString → GoString)
    (ps : Process φ) : List Request → Process φ × List Outcome
  | [] => (ps, [])
  | req :: rest =>
    let step := ps.serve exec stripHostPort req
    let tail := Process.serveAll exec stripHostPort step.1 rest
    (tail.1, step.2 :: tail.2)

end http

/-! ## `02.ServeMux/main.go`: listener A -/

namespace ServeMuxMain

open http

/-- Route 1, the function registered for `/hello/`. -/
def route1 (w : ResponseWriter) (r : Request) : ResponseWriter :=
  let name := strings.Replace r.URL.Path "/hello/".toList "".toList 1
  io.WriteString w (fmt.Sprintf "Hello %s\n".toList [name])

/-- Route 2, the function registered for `/hello`. -/
def route2 (w : ResponseWriter) (_r : Request) : ResponseWriter :=
  io.WriteString w "Hello, world!\n".toList

/-- Route 3, the function registered for `/`. -/
def route3 (w : ResponseWriter) (r : Request) : ResponseWriter :=
  let w1 : ResponseWriter :=
    { w with header := Header.Set w.header "Content-Type".toList "text/plain".toList }
  let w2 := w1.WriteHeader StatusNotFound
  io.WriteString w2 (fmt.Sprintf "Oops Not found\nURL: %s\n".toList [r.URL.Path])

/-- The function `main` up to the call of `ListenAndServe(":8080", handler)`,
for the three function literals `f1`, `f2`, `f3` it registers: the process state
the listener serves from, `none` if a registration panics. -/
def mainWith {φ : Type} (f1 f2 f3 : φ) : Option (Process φ) := do
  let handler := NewServeMux
  let handler ← handler.HandleFunc "/hello/".toList (some f1)
  let handler ← handler.HandleFunc "/hello".toList (some f2)
  let handler ← handler.HandleFunc "/".toList (some f3)
  pure { DefaultServeMux := NewServeMux, srvHandler := some handler }

/-- The function `main` with its three routes as what they write. -/
def main : Option (Process (ResponseWriter → Request → ResponseWriter)) :=
  mainWith route1 route2 route3

/-- What listener A answers to a request. -/
def listenerA (stripHostPort : GoString → GoString) (req : Request) : Option Outcome :=
  main.map (fun ps => serverHandler.ServeHTTP stripHostPort ps ResponseWriter.fresh req)

/-- The handler and the pattern that listener A selects for a request:
`mux.Handler(r)` on the multiplexer that `main` built. -/
def selectA (stripHostPort : GoString → GoString) (req : Request) :
    Option (Handler (ResponseWriter → Request → ResponseWriter) × GoString) :=
  main.bind (fun ps => ps.srvHandler.map (fun mux => mux.Handler stripHostPort req))

/-- The table lookup inside the selection, `mux.match(path)` on the multiplexer
that `main` built, for a path as it is (no cleaning, no redirect). -/
def matchA (p : GoString) :
    Option (Option (Handler (ResponseWriter → Request → ResponseWriter)) × GoString) :=
  main.bind (fun ps => ps.srvHandler.map (fun mux => mux.match_ p))

/-- The handler that the specification's matching algorithm picks for a path on
the routes that `main` registered on listener A. -/
def specDispatchA (p : GoString) :
    Option (Option (Handler (ResponseWriter → Request → ResponseWriter)) × GoString) :=
  main.bind (fun ps => ps.srvHandler.map (fun mux => specDispatch mux.m p))

/-- The three function literals of `main` as function values. -/
inductive Func where
  | route1
  | route2
  | route3
  deriving DecidableEq

/-- How the three function literals run: each body only computes strings and
writes to `w`; none assigns to a variable outside it or registers a route. -/
def exec : Exec Func
  | .route1, ps, w, r => (ps, route1 w r)
  | .route2, ps, w, r => (ps, route2 w r)
  | .route3, ps, w, r => (ps, route3 w r)

/-- The process state that `main` leaves, with the routes as function values. -/
def boot : Option (Process Func) :=
  mainWith .route1 .route2 .route3

/-- The multiplexer that `main` builds, with arbitrary functions on its three
routes: the map `m`, the sorted slice `es` and `hosts` after the three
registrations. -/
def muxA {φ : Type} (f1 f2 f3 : φ) : ServeMux φ :=
  { m := [("/".toList, { h := .HandlerFunc f3, pattern := "/".toList }),
          ("/hello".toList, { h := .HandlerFunc f2, pattern := "/hello".toList }),
          ("/hello/".toList, { h := .HandlerFunc f1, pattern := "/hello/".toList })]
    es := [{ h := .HandlerFunc f1, pattern := "/hello/".toList },
           { h := .HandlerFunc f3, pattern := "/".toList }]
    hosts := false }

/-- Route 1 as strict prefix stripping: the name is the path without its
leading `/hello/`. -/
def route1Strip (w : ResponseWriter) (r : Request) : ResponseWriter :=
  let name := strings.TrimPrefix r.URL.Path "/hello/".toList
  io.WriteString w (fmt.Sprintf "Hello %s\n".toList [name])

/-- The function `main` of listener A with `route1Strip` on the route `/hello/`. -/
def mainStrip : Option (Process (ResponseWriter → Request → ResponseWriter)) :=
  mainWith route1Strip route2 route3

/-- What listener A would answer with `route1Strip` on the route `/hello/`. -/
def listenerAStrip (stripHostPort : GoString → GoString) (req : Request) : Option Outcome :=
  mainStrip.map (fun ps => serverHandler.ServeHTTP stripHostPort ps ResponseWriter.fresh req)

end ServeMuxMain

/-! ## `Simple-HTTP-Server/main.go`: listener B -/

namespace SimpleHTTPServer

open http

/-- The function `helloHandler`. -/
def helloHandler (w : ResponseWriter) (_req : Request) : ResponseWriter :=
  io.WriteString w "Hello, world!\n".toList

/-- The function `main` up to the call of `ListenAndServe(":3000", nil)`, for
the function `f` it registers: `http.HandleFunc` registers on
`DefaultServeMux`. -/
def mainWith {φ : Type} (f : φ) : Option (Process φ) := do
  let mux ← NewServeMux.HandleFunc "/hello".toList (some f)
  pure { DefaultServeMux := mux, srvHandler := none }

/-- The function `main` with its route as what it writes. -/
def main : Option (Process (ResponseWriter → Request → ResponseWriter)) :=
  mainWith helloHandler

/-- What listener B answers to a request. -/
def listenerB (stripHostPort : GoString → GoString) (req : Request) : Option Outcome :=
  main.map (fun ps => serverHandler.ServeHTTP stripHostPort ps ResponseWriter.fresh req)

/-- The function `helloHandler` as a function value. -/
inductive Func where
  | helloHandler
  deriving DecidableEq

/-- How `helloHandler` runs: its body is one write to `w`. -/
def exec : Exec Func
  | .helloHandler, ps, w, req => (ps, helloHandler w req)

/-- The process state that `main` leaves, with the route as a function value. -/
def boot : Option (Process Func) :=
  mainWith .helloHandler

/-- The `DefaultServeMux` that `main` leaves, with an arbitrary function on its
route. -/
def muxB {φ : Type} (f : φ) : ServeMux φ :=
  { m := [("/hello".toList, { h := .HandlerFunc f, pattern := "/hello".toList })]
    es := []
    hosts := false }

end SimpleHTTPServer

/-! ## A program with hidden state, for contrast

Not a program of the repository: a server whose catch-all handler registers the
route `/late` on `DefaultServeMux` while it serves, which Go allows. It shows
what threading the process state through the handlers can tell apart. -/

namespace Contrast

open http

/-- The two functions of the contrast program as function values. -/
inductive Func where
  | grow
  | late
  deriving DecidableEq

/-- How the two functions run: `grow` calls `http.HandleFunc("/late", late)`
(ignoring its panic when the route exists) and writes; `late` only writes. -/
def exec : Exec Func
  | .grow, ps, w, _ =>
    ({ ps with DefaultServeMux :=
        (ps.DefaultServeMux.HandleFunc "/late".toList (some .late)).getD ps.DefaultServeMux },
      io.WriteString w "grown\n".toList)
  | .late, ps, w, _ => (ps, io.WriteString w "late\n".toList)

/-- The process state after `http.HandleFunc("/", grow)` and
`http.ListenAndServe(addr, nil)`. -/
def boot : Option (Process Func) := do
  let mux ← NewServeMux.HandleFunc "/".toList (some .grow)
  pure { DefaultServeMux := mux, srvHandler := none }

end Contrast

/-! # Theorems -/

open http

/-! ## Strings -/

/-- The literal `/` as a list of bytes. -/
theorem lit1 : "/".toList = ['/'] := rfl

/-- The literal `/hello` as a list of bytes. -/
theorem lit2 : "/hello".toList = ['/', 'h', 'e', 'l', 'l', 'o'] := rfl

/-- The literal `/hello/` as a list of bytes. -/
theorem lit3 : "/hello/".toList = ['/', 'h', 'e', 'l', 'l', 'o', '/'] := rfl

/-- `HasPrefix(s, pre)` holds exactly when `pre` is a prefix of `s`. -/
theorem strings.HasPrefix_iff (s pre : GoString) :
    strings.HasPrefix s pre = true ↔ pre <+: s := by
  unfold strings.HasPrefix
  rw [Bool.and_eq_true, decide_eq_true_iff, decide_eq_true_iff]
  constructor
  · rintro ⟨_, h⟩
    exact List.prefix_iff_eq_take.mpr h.symm
  · intro h
    exact ⟨h.length_le, (List.prefix_iff_eq_take.mp h).symm⟩

/-- A string that ends in the byte `c` determines what stands before `c`. -/
theorem append_slash_eq (x : GoString) (c : Char) (l : GoString) (h : x ++ [c] = l) :
    x = l.dropLast ∧ l.getLast? = some c := by
  subst h; simp

/-- Taking at least one byte keeps the first byte. -/
theorem head?_take_pos (l : GoString) (k : Nat) (hk : 1 ≤ k) : (l.take k).head? = l.head? := by
  cases l with
  | nil => simp
  | cons a t =>
    cases k with
    | zero => omega
    | succ k => simp

/-- Appending keeps the first byte of a non-empty string. -/
theorem head?_append_of_head? (l m : GoString) (c : Char) (h : l.head? = some c) :
    (l ++ m).head? = some c := by
  cases l with
  | nil => simp at h
  | cons a t => simpa using h

/-- A path whose first byte is `/` has the pattern `/` as a prefix. -/
theorem HasPrefix_slash_of_head (p : GoString) (h : p.head? = some '/') :
    strings.HasPrefix p ['/'] = true := by
  cases p with
  | nil => simp at h
  | cons a t =>
    simp at h
    subst h
    simp [strings.HasPrefix]

/-- `Index` of a non-empty `substr` in the empty string is `-1`. -/
theorem strings.Index_nil (substr : GoString) (h : substr ≠ []) : strings.Index [] substr = -1 := by
  simp [strings.Index, h]

/-- `Index` never returns less than `-1`. -/
theorem strings.Index_ge (s substr : GoString) : -1 ≤ strings.Index s substr := by
  induction s with
  | nil =>
    simp only [strings.Index]
    split <;> omega
  | cons c t ih =>
    simp only [strings.Index]
    split
    · omega
    · split <;> omega

/-- `Index(s, old)` is `0` when `s` starts with `old`. -/
theorem strings.Index_of_HasPrefix (s old : GoString) (h : strings.HasPrefix s old = true) :
    strings.Index s old = 0 := by
  cases s with
  | nil =>
    have : old = [] := by
      have := (strings.HasPrefix_iff _ _).mp h
      simpa using this
    simp [strings.Index, this]
  | cons c t => simp [strings.Index, h]

/-- The counter of `Count.loop` never decreases. -/
theorem strings.count_loop_ge (substr : GoString) (fuel : Nat) (s : GoString) (n : Int) :
    n ≤ strings.Count.loop substr fuel s n := by
  induction fuel generalizing s n with
  | zero => simp [strings.Count.loop]
  | succ k ih =>
    simp only [strings.Count.loop]
    split
    · exact le_refl _
    · exact le_trans (by omega) (ih _ _)

/-- Fuel beyond `len(s)` does not change `Count.loop` for a non-empty `substr`:
every round drops at least one byte, so the loop ends because no instance is
left, not because the bound runs out. -/
theorem strings.count_loop_fuel_succ (substr : GoString) (hne : substr ≠ []) (fuel : Nat)
    (s : GoString) (n : Int) (h : s.length < fuel) :
    strings.Count.loop substr (fuel + 1) s n = strings.Count.loop substr fuel s n := by
  induction fuel generalizing s n with
  | zero => omega
  | succ k ih =>
    rw [strings.Count.loop]
    conv_rhs => rw [strings.Count.loop]
    split
    · rfl
    · rename_i hi
      have hs : s ≠ [] := by
        rintro rfl
        exact hi (strings.Index_nil substr hne)
      have hl : 0 < s.length := List.length_pos.mpr hs
      have hsub : 0 < substr.length := List.length_pos.mpr hne
      apply ih
      rw [List.length_drop]
      omega

/-- The bound `len(s) + 1` that `Count` gives its loop is enough: any larger bound
gives the same count. -/
theorem strings.count_loop_fuel (substr : GoString) (hne : substr ≠ []) (extra : Nat)
    (s : GoString) (n : Int) :
    strings.Count.loop substr (s.length + 1 + extra) s n =
      strings.Count.loop substr (s.length + 1) s n := by
  induction extra with
  | zero => rfl
  | succ k ih =>
    rw [← ih]
    exact strings.count_loop_fuel_succ substr hne (s.length + 1 + k) s n (by omega)

/-- `Count(s, old)` is positive when `s` starts with the non-empty `old`. -/
theorem strings.Count_pos_of_HasPrefix (s old : GoString) (hne : old ≠ [])
    (h : strings.HasPrefix s old = true) : 0 < strings.Count s old := by
  have hp := (strings.HasPrefix_iff _ _).mp h
  unfold strings.Count
  have h0 : old.length ≠ 0 := by simpa using hne
  rw [if_neg h0]
  split
  · rename_i h1
    obtain ⟨c, rfl⟩ := List.length_eq_one.mp h1
    obtain ⟨t, rfl⟩ := hp
    simp
  · simp only [strings.Count.loop, strings.Index_of_HasPrefix s old h]
    rw [if_neg (by decide)]
    exact lt_of_lt_of_le (by norm_num) (strings.count_loop_ge _ _ _ _)

/-- Replacing the first instance of a non-empty `old` by the empty string in a
string that starts with `old` drops the leading `len(old)` bytes. -/
theorem strings.Replace_of_HasPrefix (s old : GoString) (hne : old ≠ [])
    (h : strings.HasPrefix s old = true) :
    strings.Replace s old [] 1 = s.drop old.length := by
  have hc := strings.Count_pos_of_HasPrefix s old hne h
  unfold strings.Replace
  have h1 : ¬ (old = [] ∨ (1 : Int) = 0) := by simp [hne]
  rw [if_neg h1]
  simp only
  rw [if_neg (by omega)]
  have h2 : ¬ ((1 : Int) < 0 ∨ strings.Count s old < 1) := by omega
  rw [if_neg h2]
  have h3 : (1 : Int).toNat = 1 := rfl
  have h0 : old.length ≠ 0 := by simpa using hne
  simp [h3, strings.Replace.loop, h0, strings.Index_of_HasPrefix s old h]

/-! ## `sort.Search` and `path.Clean` -/

/-- Fuel beyond `j - i` does not change `Search.loop`: every round shrinks the
interval. -/
theorem sort.search_loop_fuel_succ (f : Nat → Bool) (fuel i j : Nat) (h : j - i ≤ fuel) :
    sort.Search.loop f (fuel + 1) i j = sort.Search.loop f fuel i j := by
  induction fuel generalizing i j with
  | zero =>
    have : ¬ i < j := by omega
    simp [sort.Search.loop, this]
  | succ k ih =>
    rw [sort.Search.loop]
    conv_rhs => rw [sort.Search.loop]
    split
    · rename_i hij
      simp only
      have hh : (i + j) / 2 < j := by omega
      have hl : i ≤ (i + j) / 2 := by omega
      split
      · exact ih _ _ (by omega)
      · exact ih _ _ (by omega)
    · rfl

/-- A path element that starts at a byte other than `/` has at least one byte. -/
theorem takeWhile_drop_length_pos (p : GoString) (r : Nat) (hr : r < p.length)
    (h : ¬ p[r]? = some '/') :
    1 ≤ ((p.drop r).takeWhile (fun c => decide (c ≠ '/'))).length := by
  have hd : p.drop r = p[r] :: p.drop (r + 1) := by
    rw [List.drop_eq_getElem_cons hr]
  have hc : p[r] ≠ '/' := by
    intro e
    apply h
    rw [List.getElem?_eq_getElem hr, e]
  rw [hd, List.takeWhile_cons]
  simp [hc]

/-- Fuel beyond the number of bytes left to read does not change `Clean.loop`: the
loop ends because `r` reaches `len(p)`, not because the bound runs out. -/
theorem path.clean_loop_fuel_succ (p : GoString) (rooted : Bool) (fuel r : Nat) (out : GoString)
    (dotdot : Nat) (h : p.length - r < fuel) :
    path.Clean.loop p rooted (fuel + 1) r out dotdot = path.Clean.loop p rooted fuel r out dotdot := by
  induction fuel generalizing r out dotdot with
  | zero => omega
  | succ k ih =>
    rw [path.Clean.loop]
    conv_rhs => rw [path.Clean.loop]
    split
    · rename_i hr
      split
      · exact ih _ _ _ (by omega)
      · split
        · exact ih _ _ _ (by omega)
        · split
          · split
            · exact ih _ _ _ (by omega)
            · split
              · exact ih _ _ _ (by omega)
              · exact ih _ _ _ (by omega)
          · rename_i hs _ _
            have := takeWhile_drop_length_pos p r hr hs
            exact ih _ _ _ (by omega)
    · rfl

/-- The bound `len(p) + 1` that `Clean` gives its loop is enough: any larger bound
gives the same result. -/
theorem path.clean_loop_fuel (p : GoString) (rooted : Bool) (extra r : Nat) (out : GoString)
    (dotdot : Nat) :
    path.Clean.loop p rooted (p.length + 1 + extra) r out dotdot =
      path.Clean.loop p rooted (p.length + 1) r out dotdot := by
  induction extra with
  | zero => rfl
  | succ k ih =>
    rw [← ih]
    exact path.clean_loop_fuel_succ p rooted (p.length + 1 + k) r out dotdot (by omega)

/-- Backtracking over a `..` element never goes below `dotdot`. -/
theorem path.clean_backtrack_ge (out : GoString) (dotdot w : Nat) (h : dotdot ≤ w) :
    dotdot ≤ path.Clean.backtrack out dotdot w := by
  induction w with
  | zero => simpa [path.Clean.backtrack] using h
  | succ k ih =>
    simp only [path.Clean.backtrack]
    split
    · rename_i hc
      exact ih (by omega)
    · exact h

/-- On a rooted path the buffer of `Clean.loop` keeps its leading `/`. -/
theorem path.clean_loop_head (p : GoString) (fuel r : Nat) (out : GoString)
    (h : out.head? = some '/') :
    (path.Clean.loop p true fuel r out 1).head? = some '/' := by
  induction fuel generalizing r out with
  | zero => simpa [path.Clean.loop] using h
  | succ k ih =>
    simp only [path.Clean.loop]
    split
    · split
      · exact ih _ _ h
      · split
        · exact ih _ _ h
        · split
          · split
            · rename_i hlen
              apply ih
              rw [head?_take_pos _ _ (path.clean_backtrack_ge _ _ _ (by omega))]
              exact h
            · simp only [Bool.not_true, Bool.false_eq_true, if_false]
              exact ih _ _ h
          · apply ih
            apply head?_append_of_head?
            split
            · exact head?_append_of_head? _ _ _ h
            · exact h
    · exact h

/-- The clean form of a rooted path is rooted. -/
theorem path.Clean_head (p : GoString) (h : p.head? = some '/') :
    (path.Clean p).head? = some '/' := by
  unfold path.Clean
  have hne : p ≠ [] := by
    rintro rfl
    simp at h
  rw [if_neg hne]
  have hr : (decide (p.head? = some '/')) = true := by simpa using h
  simp only [hr, if_true]
  have hl := path.clean_loop_head p (p.length + 1) 1 ['/'] rfl
  split
  · rename_i h0
    have : path.Clean.loop p true (p.length + 1) 1 ['/'] 1 = [] := List.length_eq_zero.mp h0
    rw [this] at hl
    simp at hl
  · exact hl

/-- The canonical path `cleanPath(p)` always begins with `/`. -/
theorem http.cleanPath_head (p : GoString) : (cleanPath p).head? = some '/' := by
  unfold cleanPath
  split
  · rfl
  · have hq : ∀ q : GoString, q.head? = some '/' →
        (if q.getLast? = some '/' ∧ path.Clean q ≠ ['/'] then
          if q.length = (path.Clean q).length + 1 ∧ strings.HasPrefix q (path.Clean q) = true then q
          else path.Clean q ++ ['/']
        else path.Clean q).head? = some '/' := by
      intro q hq
      have hc := path.Clean_head q hq
      split
      · split
        · exact hq
        · exact head?_append_of_head? _ _ _ hc
      · exact hc
    by_cases hp : p.head? = some '/'
    · simpa [hp] using hq p hp
    · simpa [hp] using hq ('/' :: p) rfl

/-- A path in canonical form has the pattern `/` as a prefix. -/
theorem HasPrefix_slash_of_canonical (p : GoString) (h : cleanPath p = p) :
    strings.HasPrefix p ['/'] = true := by
  apply HasPrefix_slash_of_head
  rw [← h]
  exact cleanPath_head p

/-- The path `/hello` is in canonical form. -/
theorem cleanPath_hello : cleanPath "/hello".toList = "/hello".toList := by decide

/-- The path `/hello/` is in canonical form: the trailing slash is put back. -/
theorem cleanPath_hello_slash : cleanPath "/hello/".toList = "/hello/".toList := by decide

/-- A well-formed request with a canonical path does not have the target `*`. -/
theorem canonical_not_star (r : Request) (hwf : r.wellFormed)
    (hc : cleanPath r.URL.Path = r.URL.Path) : r.RequestURI ≠ ['*'] := by
  intro hs
  rcases hwf hs with h | h
  · rw [h] at hc; revert hc; decide
  · rw [h] at hc; revert hc; decide

/-! ## Listener A: the multiplexer built by `main` -/

/-- The three registrations of `main` succeed and leave the multiplexer `muxA`. -/
theorem ServeMuxMain.mainA_eq :
    ServeMuxMain.main = some ⟨NewServeMux,
      some (ServeMuxMain.muxA ServeMuxMain.route1 ServeMuxMain.route2 ServeMuxMain.route3)⟩ := by
  rfl

/-- The three registrations of `mainStrip` succeed likewise. -/
theorem ServeMuxMain.mainStrip_eq :
    ServeMuxMain.mainStrip = some ⟨NewServeMux,
      some (ServeMuxMain.muxA ServeMuxMain.route1Strip ServeMuxMain.route2
        ServeMuxMain.route3)⟩ := by
  rfl

/-- The map of `muxA` has exactly the keys `/`, `/hello` and `/hello/`. -/
theorem ServeMuxMain.lookup_muxA_isSome {φ : Type} (f1 f2 f3 : φ)
    (p : GoString) :
    ((ServeMuxMain.muxA f1 f2 f3).lookup p).isSome =
      decide (p = "/".toList ∨ p = "/hello".toList ∨ p = "/hello/".toList) := by
  unfold ServeMux.lookup ServeMuxMain.muxA
  simp only [lit1, lit2, lit3]
  by_cases h0 : p = ['/']
  · subst h0; simp [List.find?]
  · by_cases h2 : p = ['/', 'h', 'e', 'l', 'l', 'o']
    · subst h2; simp [List.find?]
    · by_cases h3 : p = ['/', 'h', 'e', 'l', 'l', 'o', '/']
      · subst h3; simp [List.find?]
      · have e0 : decide (['/'] = p) = false := by simpa [eq_comm] using h0
        have e2 : decide (['/', 'h', 'e', 'l', 'l', 'o'] = p) = false := by simpa [eq_comm] using h2
        have e3 : decide (['/', 'h', 'e', 'l', 'l', 'o', '/'] = p) = false := by
          simpa [eq_comm] using h3
        simp [List.find?, e0, e2, e3, h0, h2, h3]

/-- The method `match` on `muxA`: the exact entry `/hello`, else the longest of
the patterns `/hello/` and `/` that is a prefix of the path, else nothing. -/
theorem ServeMuxMain.match_muxA {φ : Type} (f1 f2 f3 : φ)
    (p : GoString) :
    (ServeMuxMain.muxA f1 f2 f3).match_ p =
      if p = "/hello".toList then (some (.HandlerFunc f2), "/hello".toList)
      else if strings.HasPrefix p "/hello/".toList then (some (.HandlerFunc f1), "/hello/".toList)
      else if strings.HasPrefix p "/".toList then (some (.HandlerFunc f3), "/".toList)
      else (none, []) := by
  unfold ServeMux.match_ ServeMux.lookup ServeMuxMain.muxA
  simp only [lit1, lit2, lit3]
  by_cases h2 : p = ['/', 'h', 'e', 'l', 'l', 'o']
  · subst h2; simp [List.find?]
  · by_cases h3 : p = ['/', 'h', 'e', 'l', 'l', 'o', '/']
    · subst h3
      have e : strings.HasPrefix ['/', 'h', 'e', 'l', 'l', 'o', '/'] ['/', 'h', 'e', 'l', 'l', 'o', '/'] = true := by decide
      simp [List.find?, e]
    · by_cases h0 : p = ['/']
      · subst h0
        have e : strings.HasPrefix ['/'] ['/', 'h', 'e', 'l', 'l', 'o', '/'] = false := by decide
        have e1 : strings.HasPrefix ['/'] ['/'] = true := by decide
        simp [List.find?, e, e1]
      · have e0 : decide (['/'] = p) = false := by simpa [eq_comm] using h0
        have e2 : decide (['/', 'h', 'e', 'l', 'l', 'o'] = p) = false := by simpa [eq_comm] using h2
        have e3 : decide (['/', 'h', 'e', 'l', 'l', 'o', '/'] = p) = false := by
          simpa [eq_comm] using h3
        simp only [List.find?, e0, e2, e3, Option.map, if_neg h2]
        cases strings.HasPrefix p ['/', 'h', 'e', 'l', 'l', 'o', '/'] <;>
          cases strings.HasPrefix p ['/'] <;> simp

/-- The multiplexer `muxA` never asks for the redirect that appends a slash: the
only registered subtree with a name, `/hello/`, has its bare path `/hello`
registered too. -/
theorem ServeMuxMain.shouldRedirect_muxA {φ : Type} (f1 f2 f3 : φ)
    (host p : GoString) :
    (ServeMuxMain.muxA f1 f2 f3).shouldRedirectRLocked host p = false := by
  unfold ServeMux.shouldRedirectRLocked
  simp only [ServeMuxMain.lookup_muxA_isSome, lit1, lit2, lit3, List.any_cons, List.any_nil,
    Bool.or_false]
  split
  · rfl
  · rename_i hne
    split
    · rfl
    · rename_i hn
      split
      · rename_i hs
        exfalso
        simp only [Bool.or_eq_true, decide_eq_true_eq, not_or] at hne hs
        have key : ∀ c : GoString, (c ++ ['/'] = ['/'] ∨ c ++ ['/'] = ['/', 'h', 'e', 'l', 'l', 'o'] ∨
            c ++ ['/'] = ['/', 'h', 'e', 'l', 'l', 'o', '/']) → c = [] ∨ c = ['/', 'h', 'e', 'l', 'l', 'o'] := by
          intro c hc
          rcases hc with hc | hc | hc
          · left; simpa using (append_slash_eq c '/' _ hc).1
          · exfalso; simpa using (append_slash_eq c '/' _ hc).2
          · right; simpa using (append_slash_eq c '/' _ hc).1
        rcases hs with hs | hs
        · rcases key p hs with h | h
          · exact hn (by simp [h])
          · exact hne.1.2.1 h
        · rcases key (host ++ p) hs with h | h
          · have : p = [] := (List.append_eq_nil.mp h).2
            exact hn (by simp [this])
          · exact hne.2.2.1 h
      · rfl

/-- The method `handler` on `muxA`, with `NotFoundHandler` where `match` finds
nothing. -/
theorem ServeMuxMain.handler_muxA {φ : Type} (f1 f2 f3 : φ)
    (host p : GoString) :
    (ServeMuxMain.muxA f1 f2 f3).handler host p =
      if p = "/hello".toList then (.HandlerFunc f2, "/hello".toList)
      else if strings.HasPrefix p "/hello/".toList then (.HandlerFunc f1, "/hello/".toList)
      else if strings.HasPrefix p "/".toList then (.HandlerFunc f3, "/".toList)
      else (.NotFoundHandler, []) := by
  unfold ServeMux.handler
  have hh : (ServeMuxMain.muxA f1 f2 f3).hosts = false := rfl
  simp only [hh, ServeMuxMain.match_muxA, lit1, lit2, lit3]
  by_cases h2 : p = ['/', 'h', 'e', 'l', 'l', 'o']
  · simp [h2]
  · by_cases h1 : strings.HasPrefix p ['/', 'h', 'e', 'l', 'l', 'o', '/'] = true
    · simp [h1, h2]
    · by_cases h0 : strings.HasPrefix p ['/'] = true
      · simp [h0, h1, h2]
      · simp [h0, h1, h2]

/-- The method `Handler` on `muxA`: CONNECT requests are matched as they are, any
other request with a path that is not canonical is redirected to the canonical
path, and a canonical path is matched. -/
theorem ServeMuxMain.route_muxA {φ : Type} (f1 f2 f3 : φ)
    (sh : GoString → GoString) (r : Request) :
    (ServeMuxMain.muxA f1 f2 f3).Handler sh r =
      if r.Method = "CONNECT".toList then
        (ServeMuxMain.muxA f1 f2 f3).handler r.Host r.URL.Path
      else if cleanPath r.URL.Path ≠ r.URL.Path then
        (.RedirectHandler
          { Host := [], Path := cleanPath r.URL.Path, RawPath := [], RawQuery := r.URL.RawQuery },
          ((ServeMuxMain.muxA f1 f2 f3).handler (sh r.Host) (cleanPath r.URL.Path)).2)
      else (ServeMuxMain.muxA f1 f2 f3).handler (sh r.Host) r.URL.Path := by
  unfold ServeMux.Handler ServeMux.redirectToPathSlash
  simp only [ServeMuxMain.shouldRedirect_muxA, Bool.not_false, if_true]

/-- The table lookup of listener A is `match` on `muxA`. -/
theorem ServeMuxMain.matchA_eq (p : GoString) :
    ServeMuxMain.matchA p = some ((ServeMuxMain.muxA ServeMuxMain.route1 ServeMuxMain.route2
      ServeMuxMain.route3).match_ p) := by
  unfold ServeMuxMain.matchA
  rw [ServeMuxMain.mainA_eq]
  rfl

/-- The matching algorithm of the specification on the routes of `muxA`: since the
catch-all is its third step, it picks a handler for every path. -/
theorem ServeMuxMain.specDispatch_muxA {φ : Type} (f1 f2 f3 : φ)
    (p : GoString) :
    specDispatch (ServeMuxMain.muxA f1 f2 f3).m p =
      if p = "/hello".toList then (some (.HandlerFunc f2), "/hello".toList)
      else if strings.HasPrefix p "/hello/".toList then (some (.HandlerFunc f1), "/hello/".toList)
      else (some (.HandlerFunc f3), "/".toList) := by
  unfold specDispatch ServeMuxMain.muxA
  simp only [lit1, lit2, lit3]
  have g1 : (['/'] : GoString).getLast? = some '/' := rfl
  have g2 : (['/', 'h', 'e', 'l', 'l', 'o'] : GoString).getLast? = some 'o' := rfl
  have g3 : (['/', 'h', 'e', 'l', 'l', 'o', '/'] : GoString).getLast? = some '/' := rfl
  by_cases h2 : p = ['/', 'h', 'e', 'l', 'l', 'o']
  · subst h2
    simp [List.find?, g1, g2, g3]
  · have e2 : decide (['/', 'h', 'e', 'l', 'l', 'o'] = p) = false := by simpa [eq_comm] using h2
    simp only [List.find?, g1, g2, g3, e2, if_neg h2, List.filter]
    cases h1 : strings.HasPrefix p ['/', 'h', 'e', 'l', 'l', 'o', '/'] <;>
      cases h0 : strings.HasPrefix p ['/'] <;>
      simp [longestPattern]

/-- The specification's pick on listener A is `specDispatch` on the map of `muxA`. -/
theorem ServeMuxMain.specDispatchA_eq (p : GoString) :
    ServeMuxMain.specDispatchA p = some (specDispatch (ServeMuxMain.muxA ServeMuxMain.route1
      ServeMuxMain.route2 ServeMuxMain.route3).m p) := by
  unfold ServeMuxMain.specDispatchA
  rw [ServeMuxMain.mainA_eq]
  rfl

/-- What listener A answers, in terms of `muxA`. -/
theorem ServeMuxMain.listenerA_eq (sh : GoString → GoString) (r : Request) :
    ServeMuxMain.listenerA sh r =
      some (if r.RequestURI = ['*'] ∧ r.Method = "OPTIONS".toList then
          Handler.globalOptionsHandler.ServeHTTP ResponseWriter.fresh r
        else (ServeMuxMain.muxA ServeMuxMain.route1 ServeMuxMain.route2
          ServeMuxMain.route3).ServeHTTP sh ResponseWriter.fresh r) := by
  unfold ServeMuxMain.listenerA
  rw [ServeMuxMain.mainA_eq]
  rfl

/-- For a well-formed request with a canonical path listener A runs the handler
that `handler` selects for the path. -/
theorem ServeMuxMain.listenerA_canonical (sh : GoString → GoString) (r : Request)
    (hwf : r.wellFormed) (hc : cleanPath r.URL.Path = r.URL.Path) :
    ServeMuxMain.listenerA sh r =
      some (((ServeMuxMain.muxA ServeMuxMain.route1 ServeMuxMain.route2
        ServeMuxMain.route3).handler (sh r.Host) r.URL.Path).1.ServeHTTP ResponseWriter.fresh r) := by
  have hs := canonical_not_star r hwf hc
  rw [ServeMuxMain.listenerA_eq]
  simp only [hs, false_and, if_false]
  unfold ServeMux.ServeHTTP
  rw [if_neg hs, ServeMuxMain.route_muxA]
  simp only [hc, ne_eq, not_true_eq_false, if_false]
  split
  · simp only [ServeMuxMain.handler_muxA]
  · rfl

/-- Listener A answers a request other than CONNECT whose path is not canonical
with a redirect to the canonical path; no registered handler runs. -/
theorem ServeMuxMain.listenerA_noncanonical (sh : GoString → GoString) (r : Request)
    (hs : r.RequestURI ≠ ['*']) (hm : r.Method ≠ "CONNECT".toList)
    (hc : cleanPath r.URL.Path ≠ r.URL.Path) :
    ServeMuxMain.listenerA sh r =
      some (.redirect
        { Host := [], Path := cleanPath r.URL.Path, RawPath := [], RawQuery := r.URL.RawQuery }) := by
  rw [ServeMuxMain.listenerA_eq]
  simp only [hs, false_and, if_false]
  unfold ServeMux.ServeHTTP
  rw [if_neg hs, ServeMuxMain.route_muxA, if_neg hm, if_pos hc]
  rfl

/-- Route 1 on a path that starts with `/hello/` writes `Hello `, the rest of the
path and a newline. -/
theorem ServeMuxMain.route1_of_HasPrefix (w : ResponseWriter) (r : Request)
    (h : strings.HasPrefix r.URL.Path "/hello/".toList = true) :
    ServeMuxMain.route1 w r = w.Write ("Hello ".toList ++ r.URL.Path.drop 7 ++ "\n".toList) := by
  unfold ServeMuxMain.route1 io.WriteString
  have := strings.Replace_of_HasPrefix r.URL.Path "/hello/".toList (by decide) h
  simp only [String.toList] at this ⊢
  rw [this]
  rfl

/-- Route 3 sets the content type, writes the 404 header and then the body. -/
theorem ServeMuxMain.route3_eq (w : ResponseWriter) (r : Request) :
    ServeMuxMain.route3 w r =
      ((({ w with header := Header.Set w.header "Content-Type".toList "text/plain".toList } :
        ResponseWriter).WriteHeader 404).Write
        ("Oops Not found\nURL: ".toList ++ r.URL.Path ++ "\n".toList)) := by
  rfl

/-- On a path that starts with `/hello/` route 1 and its prefix-stripping variant
write the same. -/
theorem ServeMuxMain.route1_eq_route1Strip (w : ResponseWriter) (r : Request)
    (h : strings.HasPrefix r.URL.Path "/hello/".toList = true) :
    ServeMuxMain.route1 w r = ServeMuxMain.route1Strip w r := by
  unfold ServeMuxMain.route1 ServeMuxMain.route1Strip strings.TrimPrefix
  have := strings.Replace_of_HasPrefix r.URL.Path "/hello/".toList (by decide) h
  simp only [String.toList] at this h ⊢
  rw [this, if_pos h]

/-- Two functions on the route `/hello/` that agree on every path starting with
`/hello/` give the same `ServeHTTP` on `muxA`. -/
theorem ServeMuxMain.ServeHTTP_congr (f1 g1 f2 f3 : ResponseWriter → Request → ResponseWriter)
    (h : ∀ w r, strings.HasPrefix r.URL.Path "/hello/".toList = true → f1 w r = g1 w r)
    (sh : GoString → GoString) (w : ResponseWriter) (r : Request) :
    (ServeMuxMain.muxA f1 f2 f3).ServeHTTP sh w r =
      (ServeMuxMain.muxA g1 f2 f3).ServeHTTP sh w r := by
  have key : ∀ host : GoString,
      ((ServeMuxMain.muxA f1 f2 f3).handler host r.URL.Path).1.ServeHTTP w r =
      ((ServeMuxMain.muxA g1 f2 f3).handler host r.URL.Path).1.ServeHTTP w r := by
    intro host
    simp only [ServeMuxMain.handler_muxA]
    split
    · rfl
    · split
      · rename_i hp
        simp only [Handler.ServeHTTP, h w r hp]
      · rfl
  unfold ServeMux.ServeHTTP
  split
  · rfl
  · simp only [ServeMuxMain.route_muxA]
    split
    · exact key _
    · split
      · rfl
      · exact key _

/-! ## Listener B: `DefaultServeMux` after `main` -/

/-- The registration of `main` succeeds and leaves `muxB` as `DefaultServeMux`. -/
theorem SimpleHTTPServer.mainB_eq :
    SimpleHTTPServer.main =
      some ⟨SimpleHTTPServer.muxB SimpleHTTPServer.helloHandler, none⟩ := by
  rfl

/-- The map of `muxB` has the single key `/hello`. -/
theorem SimpleHTTPServer.lookup_muxB {φ : Type} (f : φ)
    (p : GoString) :
    (SimpleHTTPServer.muxB f).lookup p =
      if p = "/hello".toList then some { h := .HandlerFunc f, pattern := "/hello".toList }
      else none := by
  unfold ServeMux.lookup SimpleHTTPServer.muxB
  simp only [lit2]
  by_cases h : p = ['/', 'h', 'e', 'l', 'l', 'o']
  · subst h; simp [List.find?]
  · have e : decide (['/', 'h', 'e', 'l', 'l', 'o'] = p) = false := by simpa [eq_comm] using h
    simp [List.find?, e, h]

/-- The method `handler` on `muxB`: `helloHandler` for `/hello`, `NotFoundHandler`
for anything else. -/
theorem SimpleHTTPServer.handler_muxB {φ : Type} (f : φ)
    (host p : GoString) :
    (SimpleHTTPServer.muxB f).handler host p =
      if p = "/hello".toList then (.HandlerFunc f, "/hello".toList)
      else (.NotFoundHandler, []) := by
  unfold ServeMux.handler ServeMux.match_
  have hh : (SimpleHTTPServer.muxB f).hosts = false := rfl
  have he : (SimpleHTTPServer.muxB f).es = [] := rfl
  simp only [hh, he, SimpleHTTPServer.lookup_muxB, lit2]
  by_cases h : p = ['/', 'h', 'e', 'l', 'l', 'o']
  · simp [h]
  · simp [h]

/-- The multiplexer `muxB` never asks for the redirect that appends a slash. -/
theorem SimpleHTTPServer.shouldRedirect_muxB {φ : Type} (f : φ)
    (host p : GoString) :
    (SimpleHTTPServer.muxB f).shouldRedirectRLocked host p = false := by
  unfold ServeMux.shouldRedirectRLocked
  simp only [SimpleHTTPServer.lookup_muxB, lit2, List.any_cons, List.any_nil, Bool.or_false]
  have key : ∀ c : GoString, c ++ ['/'] ≠ ['/', 'h', 'e', 'l', 'l', 'o'] := by
    intro c hc
    simpa using (append_slash_eq c '/' _ hc).2
  split
  · rfl
  · split
    · rfl
    · have k2 : ∀ c : GoString, (if c ++ ['/'] = ['/', 'h', 'e', 'l', 'l', 'o'] then
          some ({ h := .HandlerFunc f, pattern := ['/', 'h', 'e', 'l', 'l', 'o'] } : muxEntry φ)
          else none).isSome = false := by
        intro c
        rw [if_neg (key c)]
        rfl
      rw [k2, k2]
      simp

/-- The method `Handler` on `muxB`. -/
theorem SimpleHTTPServer.route_muxB {φ : Type} (f : φ)
    (sh : GoString → GoString) (r : Request) :
    (SimpleHTTPServer.muxB f).Handler sh r =
      if r.Method = "CONNECT".toList then
        (SimpleHTTPServer.muxB f).handler r.Host r.URL.Path
      else if cleanPath r.URL.Path ≠ r.URL.Path then
        (.RedirectHandler
          { Host := [], Path := cleanPath r.URL.Path, RawPath := [], RawQuery := r.URL.RawQuery },
          ((SimpleHTTPServer.muxB f).handler (sh r.Host) (cleanPath r.URL.Path)).2)
      else (SimpleHTTPServer.muxB f).handler (sh r.Host) r.URL.Path := by
  unfold ServeMux.Handler ServeMux.redirectToPathSlash
  simp only [SimpleHTTPServer.shouldRedirect_muxB, Bool.not_false, if_true]

/-- What listener B answers, in terms of `muxB`. -/
theorem SimpleHTTPServer.listenerB_eq (sh : GoString → GoString) (r : Request) :
    SimpleHTTPServer.listenerB sh r =
      some (if r.RequestURI = ['*'] ∧ r.Method = "OPTIONS".toList then
          Handler.globalOptionsHandler.ServeHTTP ResponseWriter.fresh r
        else (SimpleHTTPServer.muxB SimpleHTTPServer.helloHandler).ServeHTTP sh
          ResponseWriter.fresh r) := by
  unfold SimpleHTTPServer.listenerB
  rw [SimpleHTTPServer.mainB_eq]
  rfl

/-- For a well-formed request with a canonical path listener B runs the handler
that `handler` selects for the path. -/
theorem SimpleHTTPServer.listenerB_canonical (sh : GoString → GoString) (r : Request)
    (hwf : r.wellFormed) (hc : cleanPath r.URL.Path = r.URL.Path) :
    SimpleHTTPServer.listenerB sh r =
      some (((SimpleHTTPServer.muxB SimpleHTTPServer.helloHandler).handler (sh r.Host)
        r.URL.Path).1.ServeHTTP ResponseWriter.fresh r) := by
  have hs := canonical_not_star r hwf hc
  rw [SimpleHTTPServer.listenerB_eq]
  simp only [hs, false_and, if_false]
  unfold ServeMux.ServeHTTP
  rw [if_neg hs, SimpleHTTPServer.route_muxB]
  simp only [hc, ne_eq, not_true_eq_false, if_false]
  split
  · simp only [SimpleHTTPServer.handler_muxB]
  · rfl

/-- Listener B answers a request other than CONNECT whose path is not canonical
with a redirect to the canonical path. -/
theorem SimpleHTTPServer.listenerB_noncanonical (sh : GoString → GoString) (r : Request)
    (hs : r.RequestURI ≠ ['*']) (hm : r.Method ≠ "CONNECT".toList)
    (hc : cleanPath r.URL.Path ≠ r.URL.Path) :
    SimpleHTTPServer.listenerB sh r =
      some (.redirect
        { Host := [], Path := cleanPath r.URL.Path, RawPath := [], RawQuery := r.URL.RawQuery }) := by
  rw [SimpleHTTPServer.listenerB_eq]
  simp only [hs, false_and, if_false]
  unfold ServeMux.ServeHTTP
  rw [if_neg hs, SimpleHTTPServer.route_muxB, if_neg hm, if_pos hc]
  rfl

/-! ## Serving with the process state threaded through -/

/-- A handler leaves the process state as it was when every registered function
does; the library's own handlers never touch it. -/
theorem http.Handler.run_state {φ : Type} (exec : Exec φ)
    (hexec : ∀ f ps w r, (exec f ps w r).1 = ps)
    (h : Handler φ) (ps : Process φ) (w : ResponseWriter) (r : Request) :
    (h.run exec ps w r).1 = ps := by
  cases h with
  | HandlerFunc f => exact hexec f ps w r
  | RedirectHandler url => rfl
  | NotFoundHandler => rfl
  | globalOptionsHandler => rfl

/-- Serving a request leaves the process state as it was when every registered
function does. -/
theorem http.Process.serve_state {φ : Type} (exec : Exec φ)
    (hexec : ∀ f ps w r, (exec f ps w r).1 = ps)
    (sh : GoString → GoString) (ps : Process φ) (r : Request) :
    (ps.serve exec sh r).1 = ps := by
  unfold http.Process.serve http.serverHandler.run
  simp only
  by_cases hopt : r.RequestURI = ['*'] ∧ r.Method = "OPTIONS".toList
  · rw [if_pos hopt]
    exact http.Handler.run_state exec hexec _ _ _ _
  · rw [if_neg hopt]
    unfold http.ServeMux.run
    by_cases hs : r.RequestURI = ['*']
    · rw [if_pos hs]
    · rw [if_neg hs]
      exact http.Handler.run_state exec hexec _ _ _ _

/-- Serving any sequence of requests leaves the process state as it was when
every registered function does. -/
theorem http.Process.serveAll_state {φ : Type} (exec : Exec φ)
    (hexec : ∀ f ps w r, (exec f ps w r).1 = ps)
    (sh : GoString → GoString) (ps : Process φ) (rs : List Request) :
    (ps.serveAll exec sh rs).1 = ps := by
  induction rs generalizing ps with
  | nil => rfl
  | cons r rest ih =>
    simp only [http.Process.serveAll]
    rw [http.Process.serve_state exec hexec]
    exact ih ps

/-- None of the three function literals of listener A changes the process
state. -/
theorem ServeMuxMain.execA_state (f : ServeMuxMain.Func) (ps : Process ServeMuxMain.Func)
    (w : ResponseWriter) (r : Request) : (ServeMuxMain.exec f ps w r).1 = ps := by
  cases f <;> rfl

/-- The function `helloHandler` does not change the process state. -/
theorem SimpleHTTPServer.execB_state (f : SimpleHTTPServer.Func)
    (ps : Process SimpleHTTPServer.Func) (w : ResponseWriter) (r : Request) :
    (SimpleHTTPServer.exec f ps w r).1 = ps := by
  cases f; rfl

/-- The registrations of listener A leave the multiplexer `muxA`, whatever
stands for the three function values. -/
theorem ServeMuxMain.mainWith_eq {φ : Type} (f1 f2 f3 : φ) :
    ServeMuxMain.mainWith f1 f2 f3 = some ⟨NewServeMux, some (ServeMuxMain.muxA f1 f2 f3)⟩ := by
  with_unfolding_all rfl

/-- The registration of listener B leaves `muxB` as `DefaultServeMux`, whatever
stands for the function value. -/
theorem SimpleHTTPServer.mainWith_muxB {φ : Type} (f : φ) :
    SimpleHTTPServer.mainWith f = some ⟨SimpleHTTPServer.muxB f, none⟩ := by
  with_unfolding_all rfl

/-- With the process state threaded through, listener A gives the outcome that
`listenerA` gives. -/
theorem ServeMuxMain.serve_outcome (sh : GoString → GoString) (r : Request) :
    some ((⟨NewServeMux, some (ServeMuxMain.muxA ServeMuxMain.Func.route1
        ServeMuxMain.Func.route2 ServeMuxMain.Func.route3)⟩ :
        Process ServeMuxMain.Func).serve ServeMuxMain.exec sh r).2 =
      ServeMuxMain.listenerA sh r := by
  rw [ServeMuxMain.listenerA_eq]
  congr 1
  unfold http.Process.serve http.serverHandler.run
  simp only
  by_cases hopt : r.RequestURI = ['*'] ∧ r.Method = "OPTIONS".toList
  · rw [if_pos hopt, if_pos hopt]
    rfl
  · rw [if_neg hopt, if_neg hopt]
    unfold http.ServeMux.run http.ServeMux.ServeHTTP
    by_cases hs : r.RequestURI = ['*']
    · rw [if_pos hs, if_pos hs]
    · rw [if_neg hs, if_neg hs]
      simp only [ServeMuxMain.route_muxA, ServeMuxMain.handler_muxA]
      repeat' split
      all_goals rfl

/-- With the process state threaded through, listener B gives the outcome that
`listenerB` gives. -/
theorem SimpleHTTPServer.serve_outcome_B (sh : GoString → GoString) (r : Request) :
    some ((⟨SimpleHTTPServer.muxB SimpleHTTPServer.Func.helloHandler, none⟩ :
        Process SimpleHTTPServer.Func).serve SimpleHTTPServer.exec sh r).2 =
      SimpleHTTPServer.listenerB sh r := by
  rw [SimpleHTTPServer.listenerB_eq]
  congr 1
  unfold http.Process.serve http.serverHandler.run
  simp only
  by_cases hopt : r.RequestURI = ['*'] ∧ r.Method = "OPTIONS".toList
  · rw [if_pos hopt, if_pos hopt]
    rfl
  · rw [if_neg hopt, if_neg hopt]
    unfold http.ServeMux.run http.ServeMux.ServeHTTP
    by_cases hs : r.RequestURI = ['*']
    · rw [if_pos hs, if_pos hs]
    · rw [if_neg hs, if_neg hs]
      simp only [SimpleHTTPServer.route_muxB, SimpleHTTPServer.handler_muxB]
      repeat' split
      all_goals rfl

/-- The selection of listener A is `Handler` on `muxA`. -/
theorem ServeMuxMain.selectA_eq (sh : GoString → GoString) (r : Request) :
    ServeMuxMain.selectA sh r = some ((ServeMuxMain.muxA ServeMuxMain.route1
      ServeMuxMain.route2 ServeMuxMain.route3).Handler sh r) := by
  unfold ServeMuxMain.selectA
  rw [ServeMuxMain.mainA_eq]
  rfl

/-- For a canonical path the selection of listener A is what `handler` finds
for the path, whatever the method and the host. -/
theorem ServeMuxMain.selectA_canonical (sh : GoString → GoString) (r : Request)
    (hc : cleanPath r.URL.Path = r.URL.Path) :
    ServeMuxMain.selectA sh r = some ((ServeMuxMain.muxA ServeMuxMain.route1
      ServeMuxMain.route2 ServeMuxMain.route3).handler (sh r.Host) r.URL.Path) := by
  rw [ServeMuxMain.selectA_eq, ServeMuxMain.route_muxA]
  simp only [hc, ne_eq, not_true_eq_false, if_false]
  split
  · simp only [ServeMuxMain.handler_muxA]
  · rfl

/-- Serving is not idempotent for every program: the contrast program answers
`GET /late` from its catch-all first, which changes the route table, and from
the new route the second time. -/
theorem Contrast.serve_changes_state :
    Contrast.boot.map (fun ps =>
      decide ((ps.serve Contrast.exec id (Request.simple "GET".toList "/late".toList)).1 = ps))
      = some false ∧
    Contrast.boot.map (fun ps =>
      decide (((ps.serve Contrast.exec id (Request.simple "GET".toList "/late".toList)).1.serve
        Contrast.exec id (Request.simple "GET".toList "/late".toList)).2 =
        (ps.serve Contrast.exec id (Request.simple "GET".toList "/late".toList)).2))
      = some false := by
  decide

/-! ## The claims -/

/-- C1, counterexample: the request `GET //x` has a path that is not `/hello` and
does not start with `/hello/`, yet listener A does not run the catch-all
handler on it: the multiplexer answers with a redirect of its own, not with the
404 response for `//x`. -/
theorem C1_counterexample :
    (Request.simple "GET".toList "//x".toList).wellFormed ∧
    (Request.simple "GET".toList "//x".toList).URL.Path ≠ "/hello".toList ∧
    strings.HasPrefix (Request.simple "GET".toList "//x".toList).URL.Path "/hello/".toList
      = false ∧
    (ServeMuxMain.listenerA id (Request.simple "GET".toList "//x".toList)).map
      Outcome.isRedirect = some true ∧
    ServeMuxMain.listenerA id (Request.simple "GET".toList "//x".toList) ≠
      some (.response
        { header := [("Content-Type".toList, ["text/plain".toList])]
          sent := some (404, [("Content-Type".toList, ["text/plain".toList])])
          body := "Oops Not found\nURL: ".toList ++ "//x".toList ++ "\n".toList }) := by
  decide

/-- C1, amended: for every request whose path `p` is in canonical form
(`cleanPath(p) = p`), is not `/hello` and does not start with `/hello/`,
listener A answers with status 404, `Content-Type: text/plain` and the body
`Oops Not found\nURL: ` followed by `p` and a newline. -/
theorem C1_notFound_canonical (stripHostPort : GoString → GoString) (r : Request)
    (hwf : r.wellFormed) (hcanon : cleanPath r.URL.Path = r.URL.Path)
    (hne : r.URL.Path ≠ "/hello".toList)
    (hpre : strings.HasPrefix r.URL.Path "/hello/".toList = false) :
    ServeMuxMain.listenerA stripHostPort r =
      some (.response
        { header := [("Content-Type".toList, ["text/plain".toList])]
          sent := some (404, [("Content-Type".toList, ["text/plain".toList])])
          body := "Oops Not found\nURL: ".toList ++ r.URL.Path ++ "\n".toList }) := by
  rw [ServeMuxMain.listenerA_canonical stripHostPort r hwf hcanon,
    ServeMuxMain.handler_muxA]
  have h0 := HasPrefix_slash_of_canonical _ hcanon
  simp only [lit1] at *
  rw [if_neg hne, hpre]
  simp only [Bool.false_eq_true, if_false, h0, if_true]
  rfl

/-- C1, witness: the request `GET /missing`. -/
theorem C1_witness :
    (Request.simple "GET".toList "/missing".toList).wellFormed ∧
    cleanPath (Request.simple "GET".toList "/missing".toList).URL.Path =
      (Request.simple "GET".toList "/missing".toList).URL.Path ∧
    (Request.simple "GET".toList "/missing".toList).URL.Path ≠ "/hello".toList ∧
    strings.HasPrefix (Request.simple "GET".toList "/missing".toList).URL.Path
      "/hello/".toList = false ∧
    ServeMuxMain.listenerA id (Request.simple "GET".toList "/missing".toList) =
      some (.response
        { header := [("Content-Type".toList, ["text/plain".toList])]
          sent := some (404, [("Content-Type".toList, ["text/plain".toList])])
          body := "Oops Not found\nURL: /missing\n".toList }) :=
  ⟨by decide, by decide, by decide, by decide,
    C1_notFound_canonical id (Request.simple "GET".toList "/missing".toList)
      (by decide) (by decide) (by decide) (by decide)⟩

/-- C2, counterexample: the path `/hello//x` begins with `/hello/` and has no
other occurrence of it, yet listener A answers `GET /hello//x` with a redirect
of the multiplexer, not with status 200 and the body `Hello /x\n`. -/
theorem C2_counterexample :
    (Request.simple "GET".toList "/hello//x".toList).wellFormed ∧
    strings.HasPrefix (Request.simple "GET".toList "/hello//x".toList).URL.Path
      "/hello/".toList = true ∧
    strings.Contains (Request.simple "GET".toList "/hello//x".toList).URL.Path.tail
      "/hello/".toList = false ∧
    strings.Replace "/hello//x".toList "/hello/".toList "".toList 1 = "/x".toList ∧
    (ServeMuxMain.listenerA id (Request.simple "GET".toList "/hello//x".toList)).map
      Outcome.isRedirect = some true ∧
    ServeMuxMain.listenerA id (Request.simple "GET".toList "/hello//x".toList) ≠
      some (.response
        { header := []
          sent := some (200, [])
          body := "Hello ".toList ++ "/x".toList ++ "\n".toList }) := by
  decide

/-- C2, amended: for every request whose path `p` is in canonical form, is
spelled in the request target without percent-escapes that change it
(`RawPath` empty), begins with `/hello/` and contains no other occurrence of
`/hello/`, listener A answers with status 200 and the body `Hello `, `suffix`
and a newline, where `suffix` is `p` with the first occurrence of `/hello/`
removed, which is what follows the leading `/hello/`. -/
theorem C2_helloName_canonical (stripHostPort : GoString → GoString) (r : Request)
    (hwf : r.wellFormed) (hcanon : cleanPath r.URL.Path = r.URL.Path)
    (_hraw : r.URL.RawPath = [])
    (hpre : strings.HasPrefix r.URL.Path "/hello/".toList = true)
    (_hother : strings.Contains r.URL.Path.tail "/hello/".toList = false) :
    ∃ suffix : GoString,
      r.URL.Path = "/hello/".toList ++ suffix ∧
      suffix = strings.Replace r.URL.Path "/hello/".toList "".toList 1 ∧
      ServeMuxMain.listenerA stripHostPort r =
        some (.response
          { header := []
            sent := some (200, [])
            body := "Hello ".toList ++ suffix ++ "\n".toList }) := by
  have hrep := strings.Replace_of_HasPrefix r.URL.Path "/hello/".toList (by decide) hpre
  have hpfx := (strings.HasPrefix_iff _ _).mp hpre
  have hsplit : r.URL.Path = "/hello/".toList ++ r.URL.Path.drop 7 := by
    conv_lhs => rw [← List.take_append_drop 7 r.URL.Path]
    congr 1
    exact (List.prefix_iff_eq_take.mp hpfx).symm
  have hne : r.URL.Path ≠ "/hello".toList := by
    intro h
    rw [h] at hpre
    revert hpre
    decide
  refine ⟨r.URL.Path.drop 7, hsplit, hrep.symm, ?_⟩
  rw [ServeMuxMain.listenerA_canonical stripHostPort r hwf hcanon,
    ServeMuxMain.handler_muxA, if_neg hne, if_pos hpre]
  simp only [Handler.ServeHTTP]
  rw [ServeMuxMain.route1_of_HasPrefix _ _ hpre]
  rfl

/-- C2, witness: the request `GET /hello/bob`. -/
theorem C2_witness :
    (Request.simple "GET".toList "/hello/bob".toList).wellFormed ∧
    cleanPath (Request.simple "GET".toList "/hello/bob".toList).URL.Path =
      (Request.simple "GET".toList "/hello/bob".toList).URL.Path ∧
    (Request.simple "GET".toList "/hello/bob".toList).URL.RawPath = [] ∧
    strings.HasPrefix (Request.simple "GET".toList "/hello/bob".toList).URL.Path
      "/hello/".toList = true ∧
    strings.Contains (Request.simple "GET".toList "/hello/bob".toList).URL.Path.tail
      "/hello/".toList = false ∧
    ServeMuxMain.listenerA id (Request.simple "GET".toList "/hello/bob".toList) =
      some (.response
        { header := []
          sent := some (200, [])
          body := "Hello bob\n".toList }) := by
  refine ⟨by decide, by decide, rfl, by decide, by decide, ?_⟩
  obtain ⟨suffix, _, hsuffix, hresp⟩ :=
    C2_helloName_canonical id (Request.simple "GET".toList "/hello/bob".toList)
      (by decide) (by decide) rfl (by decide) (by decide)
  rw [hresp, hsuffix]
  decide

/-- C3: for a request with the path exactly `/hello` listener A selects the
exact route, registered under the pattern `/hello` (not `/hello/`, not `/`),
which is also what the table lookup finds for the path, and the listener
answers with status 200 and the body `Hello, world!\n`. -/
theorem C3_hello_exact (stripHostPort : GoString → GoString) (r : Request)
    (hwf : r.wellFormed) (hp : r.URL.Path = "/hello".toList) :
    ServeMuxMain.matchA r.URL.Path =
      some (some (.HandlerFunc ServeMuxMain.route2), "/hello".toList) ∧
    ServeMuxMain.selectA stripHostPort r =
      some (.HandlerFunc ServeMuxMain.route2, "/hello".toList) ∧
    ServeMuxMain.listenerA stripHostPort r =
      some (.response
        { header := []
          sent := some (200, [])
          body := "Hello, world!\n".toList }) := by
  have hc : cleanPath r.URL.Path = r.URL.Path := by rw [hp]; exact cleanPath_hello
  refine ⟨?_, ?_, ?_⟩
  · rw [hp]; rfl
  · rw [ServeMuxMain.selectA_canonical stripHostPort r hc, ServeMuxMain.handler_muxA,
      if_pos hp]
  · rw [ServeMuxMain.listenerA_canonical stripHostPort r hwf hc,
      ServeMuxMain.handler_muxA, if_pos hp]
    rfl

/-- C3, witness: the request `GET /hello`. -/
theorem C3_witness :
    (Request.simple "GET".toList "/hello".toList).wellFormed ∧
    (Request.simple "GET".toList "/hello".toList).URL.Path = "/hello".toList ∧
    ServeMuxMain.listenerA id (Request.simple "GET".toList "/hello".toList) =
      some (.response
        { header := []
          sent := some (200, [])
          body := "Hello, world!\n".toList }) :=
  ⟨by decide, rfl,
    (C3_hello_exact id (Request.simple "GET".toList "/hello".toList) (by decide) rfl).2.2⟩

/-- C4, counterexample: for the request `GET //x` the matching algorithm of the
specification picks the catch-all handler of `/` (the pattern `/` is a prefix of
`//x`), but listener A selects no registered function at all: the multiplexer
answers with a redirect of its own. -/
theorem C4_counterexample :
    ServeMuxMain.specDispatchA "//x".toList =
      some (some (.HandlerFunc ServeMuxMain.route3), "/".toList) ∧
    (ServeMuxMain.selectA id (Request.simple "GET".toList "//x".toList)).map
      (fun s => s.1.isFunc) = some false ∧
    (ServeMuxMain.listenerA id (Request.simple "GET".toList "//x".toList)).map
      Outcome.isRedirect = some true :=
  ⟨rfl, by decide, by decide⟩

/-- C4, amended: for every request whose path `p` is in canonical form and is
spelled in the request target without percent-escapes that change it (`RawPath`
empty), the selection of listener A is defined and is the handler that the
matching algorithm of the specification picks: the `/hello` handler if `p` is
`/hello`, otherwise the `/hello/` handler if `/hello/` is a prefix of `p`,
otherwise the catch-all handler of `/`; and the listener answers with what that
handler writes. -/
theorem C4_select_canonical (stripHostPort : GoString → GoString) (r : Request)
    (hwf : r.wellFormed) (hcanon : cleanPath r.URL.Path = r.URL.Path)
    (_hraw : r.URL.RawPath = []) :
    ServeMuxMain.selectA stripHostPort r =
      some (if r.URL.Path = "/hello".toList then
          (.HandlerFunc ServeMuxMain.route2, "/hello".toList)
        else if strings.HasPrefix r.URL.Path "/hello/".toList then
          (.HandlerFunc ServeMuxMain.route1, "/hello/".toList)
        else (.HandlerFunc ServeMuxMain.route3, "/".toList)) ∧
    ServeMuxMain.specDispatchA r.URL.Path =
      (ServeMuxMain.selectA stripHostPort r).map (fun s => (some s.1, s.2)) ∧
    ServeMuxMain.listenerA stripHostPort r =
      (ServeMuxMain.selectA stripHostPort r).map
        (fun s => s.1.ServeHTTP ResponseWriter.fresh r) := by
  have h0 := HasPrefix_slash_of_canonical _ hcanon
  have hsel : ServeMuxMain.selectA stripHostPort r =
      some (if r.URL.Path = "/hello".toList then
          (.HandlerFunc ServeMuxMain.route2, "/hello".toList)
        else if strings.HasPrefix r.URL.Path "/hello/".toList then
          (.HandlerFunc ServeMuxMain.route1, "/hello/".toList)
        else (.HandlerFunc ServeMuxMain.route3, "/".toList)) := by
    rw [ServeMuxMain.selectA_canonical stripHostPort r hcanon, ServeMuxMain.handler_muxA]
    simp only [lit1] at *
    simp only [h0, if_true]
  refine ⟨hsel, ?_, ?_⟩
  · rw [hsel, ServeMuxMain.specDispatchA_eq, ServeMuxMain.specDispatch_muxA]
    simp only [Option.map]
    congr 1
    split
    · rfl
    · split <;> rfl
  · rw [ServeMuxMain.listenerA_canonical stripHostPort r hwf hcanon,
      ServeMuxMain.selectA_canonical stripHostPort r hcanon]
    rfl

/-- C4, witness: the request `GET /about` is dispatched to the catch-all
handler. -/
theorem C4_witness :
    (Request.simple "GET".toList "/about".toList).wellFormed ∧
    cleanPath (Request.simple "GET".toList "/about".toList).URL.Path =
      (Request.simple "GET".toList "/about".toList).URL.Path ∧
    (Request.simple "GET".toList "/about".toList).URL.RawPath = [] ∧
    ServeMuxMain.selectA id (Request.simple "GET".toList "/about".toList) =
      some (.HandlerFunc ServeMuxMain.route3, "/".toList) :=
  ⟨by decide, by decide, rfl,
    (C4_select_canonical id (Request.simple "GET".toList "/about".toList)
      (by decide) (by decide) rfl).1⟩

/-- C5: for a request with the path `/hello` listener B selects `helloHandler`
and answers with status 200 and the body `Hello, world!\n`. -/
theorem C5_listenerB_hello (stripHostPort : GoString → GoString) (r : Request)
    (hwf : r.wellFormed) (hp : r.URL.Path = "/hello".toList) :
    (∃ ps, SimpleHTTPServer.main = some ps ∧
      (ps.DefaultServeMux.Handler stripHostPort r).1 =
        .HandlerFunc SimpleHTTPServer.helloHandler) ∧
    SimpleHTTPServer.listenerB stripHostPort r =
      some (.response
        { header := []
          sent := some (200, [])
          body := "Hello, world!\n".toList }) := by
  have hc : cleanPath r.URL.Path = r.URL.Path := by rw [hp]; exact cleanPath_hello
  constructor
  · refine ⟨_, SimpleHTTPServer.mainB_eq, ?_⟩
    simp only [SimpleHTTPServer.route_muxB, SimpleHTTPServer.handler_muxB, hc, hp]
    have hc2 : cleanPath ['/', 'h', 'e', 'l', 'l', 'o'] = ['/', 'h', 'e', 'l', 'l', 'o'] :=
      cleanPath_hello
    simp [hc2]
  · rw [SimpleHTTPServer.listenerB_canonical stripHostPort r hwf hc,
      SimpleHTTPServer.handler_muxB, if_pos hp]
    rfl

/-- C5, witness: the request `GET /hello`. -/
theorem C5_witness :
    (Request.simple "GET".toList "/hello".toList).wellFormed ∧
    (Request.simple "GET".toList "/hello".toList).URL.Path = "/hello".toList ∧
    SimpleHTTPServer.listenerB id (Request.simple "GET".toList "/hello".toList) =
      some (.response
        { header := []
          sent := some (200, [])
          body := "Hello, world!\n".toList }) :=
  ⟨by decide, rfl,
    (C5_listenerB_hello id (Request.simple "GET".toList "/hello".toList) (by decide) rfl).2⟩

/-- C6, counterexample: the path `//hello` is not `/hello`, yet listener B does
not answer `GET //hello` with its not-found response: the multiplexer answers
with a redirect of its own. -/
theorem C6_counterexample :
    (Request.simple "GET".toList "//hello".toList).wellFormed ∧
    (Request.simple "GET".toList "//hello".toList).URL.Path ≠ "/hello".toList ∧
    (SimpleHTTPServer.listenerB id (Request.simple "GET".toList "//hello".toList)).map
      Outcome.isRedirect = some true ∧
    SimpleHTTPServer.listenerB id (Request.simple "GET".toList "//hello".toList) ≠
      some (.response (NotFound ResponseWriter.fresh
        (Request.simple "GET".toList "//hello".toList))) ∧
    (SimpleHTTPServer.listenerB id (Request.simple "GET".toList "//hello".toList)).bind
      Outcome.status ≠ some 404 := by
  decide

/-- C6, amended: for every request whose path is not exactly `/hello`, listener B
does not select `helloHandler` (nor any registered function); and when the path
is in canonical form the answer is the response of the library's
`NotFoundHandler`, with status 404. -/
theorem C6_listenerB_other (stripHostPort : GoString → GoString) (r : Request)
    (hne : r.URL.Path ≠ "/hello".toList) :
    (∃ ps, SimpleHTTPServer.main = some ps ∧
      ∀ f, (ps.DefaultServeMux.Handler stripHostPort r).1 ≠ .HandlerFunc f) ∧
    (r.wellFormed → cleanPath r.URL.Path = r.URL.Path →
      SimpleHTTPServer.listenerB stripHostPort r =
        some (.response (NotFound ResponseWriter.fresh r)) ∧
      (SimpleHTTPServer.listenerB stripHostPort r).bind Outcome.status = some 404) := by
  constructor
  · refine ⟨_, SimpleHTTPServer.mainB_eq, ?_⟩
    intro f
    simp only [SimpleHTTPServer.route_muxB, SimpleHTTPServer.handler_muxB, if_neg hne]
    split
    · simp
    · split
      · simp
      · simp
  · intro hwf hc
    have h : SimpleHTTPServer.listenerB stripHostPort r =
        some (.response (NotFound ResponseWriter.fresh r)) := by
      rw [SimpleHTTPServer.listenerB_canonical stripHostPort r hwf hc,
        SimpleHTTPServer.handler_muxB, if_neg hne]
      rfl
    refine ⟨h, ?_⟩
    rw [h]
    rfl

/-- C6, witness: the request `GET /hello/`. -/
theorem C6_witness :
    (Request.simple "GET".toList "/hello/".toList).URL.Path ≠ "/hello".toList ∧
    (Request.simple "GET".toList "/hello/".toList).wellFormed ∧
    cleanPath (Request.simple "GET".toList "/hello/".toList).URL.Path =
      (Request.simple "GET".toList "/hello/".toList).URL.Path ∧
    (SimpleHTTPServer.listenerB id (Request.simple "GET".toList "/hello/".toList)).bind
      Outcome.status = some 404 :=
  ⟨by decide, by decide, by decide,
    ((C6_listenerB_other id (Request.simple "GET".toList "/hello/".toList) (by decide)).2
      (by decide) (by decide)).2⟩

/-- C7: for a request whose target spells the path exactly as `/hello/` (path
`/hello/`, `RawPath` empty) listener A selects the route registered under
`/hello/`, not the exact route `/hello`, and answers with status 200 and the
body `Hello \n`. -/
theorem C7_hello_slash (stripHostPort : GoString → GoString) (r : Request)
    (hwf : r.wellFormed) (hp : r.URL.Path = "/hello/".toList)
    (_hraw : r.URL.RawPath = []) :
    ServeMuxMain.selectA stripHostPort r =
      some (.HandlerFunc ServeMuxMain.route1, "/hello/".toList) ∧
    ServeMuxMain.listenerA stripHostPort r =
      some (.response
        { header := []
          sent := some (200, [])
          body := "Hello \n".toList }) := by
  have hpre : strings.HasPrefix r.URL.Path "/hello/".toList = true := by rw [hp]; decide
  have hne : r.URL.Path ≠ "/hello".toList := by rw [hp]; decide
  have hc : cleanPath r.URL.Path = r.URL.Path := by rw [hp]; exact cleanPath_hello_slash
  constructor
  · rw [ServeMuxMain.selectA_canonical stripHostPort r hc, ServeMuxMain.handler_muxA,
      if_neg hne, if_pos hpre]
  · rw [ServeMuxMain.listenerA_canonical stripHostPort r hwf hc,
      ServeMuxMain.handler_muxA, if_neg hne, if_pos hpre]
    simp only [Handler.ServeHTTP]
    rw [ServeMuxMain.route1_of_HasPrefix _ _ hpre, hp]
    rfl

/-- C7, witness: the request `GET /hello/`. -/
theorem C7_witness :
    (Request.simple "GET".toList "/hello/".toList).wellFormed ∧
    (Request.simple "GET".toList "/hello/".toList).URL.Path = "/hello/".toList ∧
    (Request.simple "GET".toList "/hello/".toList).URL.RawPath = [] ∧
    ServeMuxMain.listenerA id (Request.simple "GET".toList "/hello/".toList) =
      some (.response
        { header := []
          sent := some (200, [])
          body := "Hello \n".toList }) :=
  ⟨by decide, rfl, rfl,
    (C7_hello_slash id (Request.simple "GET".toList "/hello/".toList) (by decide) rfl rfl).2⟩

/-- C8: on listener A and on listener B, with the process state threaded
through every handler call, serving a request leaves the process state (route
tables included) as it was, serving the same request again gives the same
outcome, and so does serving it after any sequence of other requests; the
outcome is the one `listenerA` (`listenerB`) gives. -/
theorem C8_idempotent (stripHostPort : GoString → GoString) (earlier : List Request)
    (r : Request) :
    (∃ ps, ServeMuxMain.boot = some ps ∧
      (ps.serve ServeMuxMain.exec stripHostPort r).1 = ps ∧
      ((ps.serve ServeMuxMain.exec stripHostPort r).1.serve ServeMuxMain.exec
        stripHostPort r).2 = (ps.serve ServeMuxMain.exec stripHostPort r).2 ∧
      (ps.serveAll ServeMuxMain.exec stripHostPort earlier).1 = ps ∧
      ((ps.serveAll ServeMuxMain.exec stripHostPort earlier).1.serve ServeMuxMain.exec
        stripHostPort r).2 = (ps.serve ServeMuxMain.exec stripHostPort r).2 ∧
      some (ps.serve ServeMuxMain.exec stripHostPort r).2 =
        ServeMuxMain.listenerA stripHostPort r) ∧
    (∃ ps, SimpleHTTPServer.boot = some ps ∧
      (ps.serve SimpleHTTPServer.exec stripHostPort r).1 = ps ∧
      ((ps.serve SimpleHTTPServer.exec stripHostPort r).1.serve SimpleHTTPServer.exec
        stripHostPort r).2 = (ps.serve SimpleHTTPServer.exec stripHostPort r).2 ∧
      (ps.serveAll SimpleHTTPServer.exec stripHostPort earlier).1 = ps ∧
      ((ps.serveAll SimpleHTTPServer.exec stripHostPort earlier).1.serve
        SimpleHTTPServer.exec stripHostPort r).2 =
        (ps.serve SimpleHTTPServer.exec stripHostPort r).2 ∧
      some (ps.serve SimpleHTTPServer.exec stripHostPort r).2 =
        SimpleHTTPServer.listenerB stripHostPort r) := by
  constructor
  · refine ⟨_, ServeMuxMain.mainWith_eq _ _ _, ?_, ?_, ?_, ?_, ?_⟩
    · exact http.Process.serve_state _ ServeMuxMain.execA_state _ _ _
    · rw [http.Process.serve_state _ ServeMuxMain.execA_state]
    · exact http.Process.serveAll_state _ ServeMuxMain.execA_state _ _ _
    · rw [http.Process.serveAll_state _ ServeMuxMain.execA_state]
    · exact ServeMuxMain.serve_outcome stripHostPort r
  · refine ⟨_, SimpleHTTPServer.mainWith_muxB _, ?_, ?_, ?_, ?_, ?_⟩
    · exact http.Process.serve_state _ SimpleHTTPServer.execB_state _ _ _
    · rw [http.Process.serve_state _ SimpleHTTPServer.execB_state]
    · exact http.Process.serveAll_state _ SimpleHTTPServer.execB_state _ _ _
    · rw [http.Process.serveAll_state _ SimpleHTTPServer.execB_state]
    · exact SimpleHTTPServer.serve_outcome_B stripHostPort r

/-- C9: two requests with the same URL path get the same response from each of
the three handlers of listener A, whatever their body, header and query (no
handler reads them); and for a canonical path the answer of listener A as a
whole does not change when body, header and query are replaced. -/
theorem C9_path_only (stripHostPort : GoString → GoString) (w : ResponseWriter)
    (r1 r2 : Request) (hpath : r1.URL.Path = r2.URL.Path) :
    ServeMuxMain.route1 w r1 = ServeMuxMain.route1 w r2 ∧
    ServeMuxMain.route2 w r1 = ServeMuxMain.route2 w r2 ∧
    ServeMuxMain.route3 w r1 = ServeMuxMain.route3 w r2 ∧
    (r1.wellFormed → cleanPath r1.URL.Path = r1.URL.Path →
      ∀ (body : GoString) (header : Header) (query : GoString),
        ServeMuxMain.listenerA stripHostPort
          { r1 with Body := body, Header := header, URL := { r1.URL with RawQuery := query } } =
        ServeMuxMain.listenerA stripHostPort r1) := by
  refine ⟨?_, ?_, ?_, ?_⟩
  · unfold ServeMuxMain.route1; rw [hpath]
  · rfl
  · unfold ServeMuxMain.route3; rw [hpath]
  · intro hwf hc body header query
    have e1 := ServeMuxMain.listenerA_canonical stripHostPort r1 hwf hc
    have e2 := ServeMuxMain.listenerA_canonical stripHostPort
      { r1 with Body := body, Header := header, URL := { r1.URL with RawQuery := query } } hwf hc
    rw [e1, e2]
    simp only [ServeMuxMain.handler_muxA]
    split
    · rfl
    · split
      · rfl
      · split
        · rfl
        · rfl

/-- C9, witness: `GET /hello/bob` and `POST /hello/bob?q=1` with a header and a
body. -/
theorem C9_witness :
    (Request.simple "GET".toList "/hello/bob".toList).URL.Path =
      ({ Request.simple "POST".toList "/hello/bob".toList with
          Body := "secret".toList
          Header := [("X-Token".toList, ["1".toList])]
          URL := ⟨[], "/hello/bob".toList, [], "q=1".toList⟩ } :
        Request).URL.Path ∧
    ServeMuxMain.route1 ResponseWriter.fresh (Request.simple "GET".toList "/hello/bob".toList) =
      ServeMuxMain.route1 ResponseWriter.fresh
        { Request.simple "POST".toList "/hello/bob".toList with
          Body := "secret".toList
          Header := [("X-Token".toList, ["1".toList])]
          URL := ⟨[], "/hello/bob".toList, [], "q=1".toList⟩ } :=
  ⟨rfl, (C9_path_only id ResponseWriter.fresh _ _ rfl).1⟩

/-- C10: for every path `p` that has `/hello/` as a prefix, also one with further
occurrences of `/hello/`, `strings.Replace(p, "/hello/", "", 1)` is `p` without
its first 7 bytes, `/hello/` followed by that name is `p`, and route 1 writes
`Hello `, those bytes and a newline, as the prefix-stripping variant does; and
listener A answers every request as it would with the prefix-stripping variant
on the route. -/
theorem C10_replace_is_strip :
    (∀ p : GoString, strings.HasPrefix p "/hello/".toList = true →
      strings.Replace p "/hello/".toList "".toList 1 = p.drop 7 ∧
      "/hello/".toList ++ strings.Replace p "/hello/".toList "".toList 1 = p ∧
      ∀ (w : ResponseWriter) (r : Request), r.URL.Path = p →
        ServeMuxMain.route1 w r = w.Write ("Hello ".toList ++ p.drop 7 ++ "\n".toList) ∧
        (ServeMuxMain.route1 ResponseWriter.fresh r).body =
          "Hello ".toList ++ p.drop 7 ++ "\n".toList ∧
        ServeMuxMain.route1 w r = ServeMuxMain.route1Strip w r) ∧
    (∀ (stripHostPort : GoString → GoString) (r : Request),
      ServeMuxMain.listenerA stripHostPort r = ServeMuxMain.listenerAStrip stripHostPort r) := by
  constructor
  · intro p hpre
    have hrep : strings.Replace p "/hello/".toList "".toList 1 = p.drop 7 :=
      strings.Replace_of_HasPrefix p "/hello/".toList (by decide) hpre
    have hpfx := (strings.HasPrefix_iff _ _).mp hpre
    refine ⟨hrep, ?_, ?_⟩
    · rw [hrep]
      conv_rhs => rw [← List.take_append_drop 7 p]
      congr 1
      exact List.prefix_iff_eq_take.mp hpfx
    · intro w r hr
      subst hr
      refine ⟨ServeMuxMain.route1_of_HasPrefix w r hpre, ?_,
        ServeMuxMain.route1_eq_route1Strip w r hpre⟩
      rw [ServeMuxMain.route1_of_HasPrefix _ r hpre]
      rfl
  · intro sh r
    unfold ServeMuxMain.listenerA ServeMuxMain.listenerAStrip
    rw [ServeMuxMain.mainA_eq, ServeMuxMain.mainStrip_eq]
    simp only [Option.map, http.serverHandler.ServeHTTP]
    congr 1
    split
    · rfl
    · exact ServeMuxMain.ServeHTTP_congr _ _ _ _
        (fun w r h => ServeMuxMain.route1_eq_route1Strip w r h) sh _ r

/-- C10, witness: the path `/hello/a/hello/b`. -/
theorem C10_witness :
    strings.HasPrefix "/hello/a/hello/b".toList "/hello/".toList = true ∧
    strings.Replace "/hello/a/hello/b".toList "/hello/".toList "".toList 1 =
      "a/hello/b".toList :=
  ⟨by decide, (C10_replace_is_strip.1 "/hello/a/hello/b".toList (by decide)).1⟩
